import Mathlib

/-!
Verification development for the Raah-Sugam adaptive traffic control system.

The file has three parts:
1. a shallow embedding of the backend HTTP entry point (health check and
   ingest rate limiter) from `backend-index.ts`;
2. a shallow embedding of the dashboard's per-tick snapshot consumption
   from `dashboard-IntersectionView.tsx`;
3. a model of the adaptive signal-phase control engine (topology, strategy
   modules, phase state machine, emergency preemption supervisor, control
   loop), modelled from the specification because the engine's source is
   not part of the checked-in sources.

All definitions are executable and all predicates decidable, so concrete
states can be evaluated by `decide`.
-/

namespace RaahSugam

/-! ### Part 1: backend entry point (`backend-index.ts`) -/

/-- Shape of the JSON body answered by `GET /healthz` together with the
HTTP status code (from `backend-index.ts`, lines 155-179). Fields that the
handler always sets identically (timestamp, uptime, ...) are omitted; the
fields that distinguish the two branches are kept. -/
structure HealthzResponse where
  httpStatus : Nat
  status : String
  error : Option String
  deriving DecidableEq, Repr

/-- The `/healthz` handler: it runs the database probe `SELECT 1`; on
success it answers `200` with status `healthy`, on a thrown error it
answers `503` with status `unhealthy` and error `Database connection
failed` (from `backend-index.ts`, lines 155-179). The probe outcome is the
handler's only input, embedded as an `Except` value. -/
def healthzHandler (probe : Except String Unit) : HealthzResponse :=
  match probe with
  | Except.ok _ =>
      { httpStatus := 200, status := "healthy", error := none }
  | Except.error _ =>
      { httpStatus := 503, status := "unhealthy",
        error := some "Database connection failed" }

/-- Window and cap of a rate limiter (from the `rateLimit({...})` options
in `backend-index.ts`). -/
structure RateLimiterCfg where
  windowMs : Nat
  maxReq : Nat
  deriving DecidableEq, Repr

/-- The ingest rate limiter configuration: 1 minute window, 1000 requests
(from `backend-index.ts`, lines 57-69); it is mounted on
`/api/v1/ingest` (line 126). -/
def ingestLimiterCfg : RateLimiterCfg := { windowMs := 60000, maxReq := 1000 }

/-- The `startsWith` string test, embedded as a prefix test on the
character lists of the two strings so that it evaluates inside the
kernel. -/
def strStartsWith (s p : String) : Bool :=
  List.isPrefixOf p.toList s.toList

/-- The ingest limiter's `skip` predicate: skip rate limiting exactly when
the request's Authorization header starts with `Bearer ` (from
`backend-index.ts`, lines 65-68: the `?.` chain yields `false` when the
header is absent). -/
def ingestSkip (authorization : Option String) : Bool :=
  match authorization with
  | some v => strStartsWith v "Bearer "
  | none => false

/-- Whether the rate limiter rejects a request, given the value of its
`skip` predicate and the number of prior requests from the same IP in the
current window: a request is rejected when it is not skipped and the
window already holds `maxReq` requests. -/
def rateLimitRejects (cfg : RateLimiterCfg) (skip : Bool)
    (priorInWindow : Nat) : Bool :=
  !skip && decide (cfg.maxReq ≤ priorInWindow)

/-! ### Part 2: dashboard snapshot consumption
(`dashboard-IntersectionView.tsx`) -/

/-- The per-tick snapshot (`TrafficData`) as consumed by the dashboard's
`IntersectionView` component: exactly the fields the component reads off
`trafficData` (from `dashboard-IntersectionView.tsx`). Scalar fields the
component guards with `||`/`?.` are embedded as `Option`. -/
structure TrafficData where
  phase : Option String
  remainingSeconds : Option Nat
  controllerMode : Option String
  emergencyActive : Bool
  emergencyDirection : Option String
  emergencyDuration : Option Nat
  queues : List (String × Nat)
  throughputPerMin : Option Nat
  avgWaitTime : Option Nat
  systemLatency : Option Nat
  detectionFps : Option Nat
  deriving DecidableEq, Repr

/-- The names of the `trafficData` fields read by `IntersectionView`
(lines 46-47, 69, 113-114, 125-127, 134, 145-147, 208-209, 236, 243 of
`dashboard-IntersectionView.tsx`). -/
def intersectionViewSnapshotFields : List String :=
  ["phase", "remainingSeconds", "controllerMode", "emergencyActive",
   "emergencyDirection", "emergencyDuration", "queues",
   "throughputPerMin", "avgWaitTime", "systemLatency", "detectionFps"]

/-- The snapshot field names claimed by the specification
(`{phaseId, subState, remainingSec, mode, emergencyActive,
emergencyApproachId?, totalQueueByApproach}`). This definition follows the
spec's words and exists to be compared with
`intersectionViewSnapshotFields`, which follows the dashboard source. -/
def specSnapshotFields : List String :=
  ["phaseId", "subState", "remainingSec", "mode", "emergencyActive",
   "emergencyApproachId", "totalQueueByApproach"]

/-- Whether the emergency alert toast is raised for a snapshot: the
`useEffect` at lines 45-56 of `dashboard-IntersectionView.tsx` raises it
exactly when `emergencyActive` is truthy and `emergencyDirection` is set. -/
def emergencyAlertShown (td : TrafficData) : Bool :=
  td.emergencyActive && td.emergencyDirection.isSome

/-! ### Part 3: the adaptive signal-phase control engine

Modelled from the spec: the engine itself (Intersection Topology, Strategy
Modules, Phase State Machine, Emergency Preemption Supervisor and Control
Loop of spec sections 3-5) is not among the checked-in sources — only its
demo walkthrough, dashboard consumer and deployment script are — so the
definitions below follow the specification's words. Time is discrete: one
`tick` is one control-loop period (spec 4.5), and all durations are in
ticks. Confidence scores are integers in hundredths (70 stands for 0.7). -/

/-- Approach identifier (spec section 3, Approach). -/
abbrev ApproachId := Nat

/-- Phase identifier (spec section 3, Phase). -/
abbrev PhaseId := Nat

/-- Queue lengths by approach, an association list updated by telemetry
ingestion at tick boundaries (spec section 3, Approach). -/
abbrev Queues := List (ApproachId × Nat)

/-- Current queue length of an approach; approaches never reported by
telemetry have an empty queue. -/
def queueOf (qs : Queues) (a : ApproachId) : Nat :=
  match qs.find? (fun e => e.1 == a) with
  | some e => e.2
  | none => 0

/-- Modelled from the spec: the static intersection topology with the
movement conflict relation, loaded once at startup (spec 4.1). -/
structure Topology where
  approaches : List ApproachId
  conflictPairs : List (ApproachId × ApproachId)
  deriving DecidableEq, Repr

/-- Whether two approaches conflict. -/
def conflicts (t : Topology) (a b : ApproachId) : Bool :=
  t.conflictPairs.contains (a, b)

/-- Whether approach `a` conflicts, in either direction, with no element
of `rest`. -/
def noConflictWith (t : Topology) (a : ApproachId)
    (rest : List ApproachId) : Bool :=
  rest.all (fun b => !conflicts t a b && !conflicts t b a)

/-- Whether a set of approaches contains no conflicting pair. -/
def conflictFree (t : Topology) : List ApproachId → Bool
  | [] => true
  | a :: rest => noConflictWith t a rest && conflictFree t rest

/-- Modelled from the spec: a Phase — a set of approaches granted
simultaneous movement, with its timing bounds (spec section 3, Phase).
Immutable after configuration load. -/
structure Phase where
  id : PhaseId
  approaches : List ApproachId
  minGreen : Nat
  maxGreen : Nat
  yellowDur : Nat
  allRedDur : Nat
  deriving DecidableEq, Repr

/-- Modelled from the spec: the configuration surface loaded once (spec
section 6): topology, phase list, default cycle order, strategy timing
parameters, preemption windows and the RL confidence threshold (the
deployment script sets `RL_CONFIDENCE_THRESHOLD=0.7`, kept here in
hundredths). -/
structure Config where
  topo : Topology
  phases : List Phase
  cycle : List PhaseId
  baseGreen : Nat
  extPerVehicle : Nat
  extCap : Nat
  preemptWindow : Nat
  preemptMaxWindow : Nat
  preemptRecoveryDur : Nat
  rlConfThreshold : Nat
  emergConfThreshold : Nat
  deriving DecidableEq, Repr

/-- Look up a phase by identifier. -/
def findPhase (cfg : Config) (pid : PhaseId) : Option Phase :=
  cfg.phases.find? (fun ph => ph.id == pid)

/-- Yellow duration of a phase (1 for an unknown phase id, which a valid
configuration excludes). -/
def yellowOf (cfg : Config) (p : PhaseId) : Nat :=
  match findPhase cfg p with
  | some ph => ph.yellowDur
  | none => 1

/-- All-red clearance duration of a phase. -/
def allRedOf (cfg : Config) (p : PhaseId) : Nat :=
  match findPhase cfg p with
  | some ph => ph.allRedDur
  | none => 1

/-- Modelled from the spec: the configuration validity checked at load
time (spec 4.1 and section 7, ConfigurationError): every phase's approach
set is internally conflict free, durations are positive and ordered, the
cycle is non-empty and names only configured phases. -/
def validConfig (cfg : Config) : Prop :=
  (∀ ph ∈ cfg.phases, conflictFree cfg.topo ph.approaches = true ∧
      0 < ph.minGreen ∧ ph.minGreen ≤ ph.maxGreen ∧
      0 < ph.yellowDur ∧ 0 < ph.allRedDur) ∧
  cfg.cycle ≠ [] ∧
  (∀ p ∈ cfg.cycle, (findPhase cfg p).isSome = true)

instance (cfg : Config) : Decidable (validConfig cfg) := by
  unfold validConfig; infer_instance

/-- The four controller modes (spec 4.2). -/
inductive Mode
  | fixed
  | heuristic
  | adaptive
  | manual
  deriving DecidableEq, Repr

/-- The originating strategy tag carried by a Decision (spec section 3,
Decision). -/
inductive StrategyTag
  | fixedTimer
  | maxPressure
  | rlAdvisory
  | manualTag
  deriving DecidableEq, Repr

/-- Modelled from the spec: a Decision — proposed phase, duration,
confidence and originating strategy, produced each tick and never
persisted (spec section 3, Decision). -/
structure Decision where
  phaseId : PhaseId
  durationSec : Nat
  confidence : Nat
  tag : StrategyTag
  deriving DecidableEq, Repr

/-- The sub-states of the phase state machine (spec 4.3). -/
inductive SubState
  | green (p : PhaseId)
  | yellow (p : PhaseId)
  | allRed
  | preemptClear
  | preemptGreen (served : List ApproachId)
  | preemptRecovery
  deriving DecidableEq, Repr

/-- Modelled from the spec: the single mutable source of truth
(SignalState of spec section 3) together with the supervisor queues and
topology-relative queue state owned by the control loop: current
sub-state, elapsed ticks in it, its required duration, the rotation
pointer (current or last normal phase), active mode, the mode and phase
preempted from, the queued mode switch, the queued and flagged emergency
approaches, the queue lengths, and the adaptive fallback telemetry flag. -/
structure EngineState where
  sub : SubState
  elapsed : Nat
  subDur : Nat
  curPhase : PhaseId
  mode : Mode
  preemptedFrom : Option (PhaseId × Mode)
  pendingMode : Option Mode
  emergQueue : List ApproachId
  emergFlags : List ApproachId
  queues : Queues
  usedFallback : Bool
  deriving DecidableEq, Repr

/-- Modelled from the spec: the asynchronous inputs drained once per tick
(spec 4.5 and section 6): telemetry records, emergency records,
emergency resolutions (cancellations), a mode-switch command, an operator
command and an advisory decision. -/
structure TickInput where
  telemetry : List (ApproachId × Nat)
  emergencies : List (ApproachId × Nat)
  resolutions : List ApproachId
  modeReq : Option Mode
  manualCmd : Option (PhaseId × Nat)
  advisory : Option Decision
  deriving DecidableEq, Repr

/-- A tick with no buffered inputs at all. -/
def quietInput : TickInput :=
  { telemetry := [], emergencies := [], resolutions := [],
    modeReq := none, manualCmd := none, advisory := none }

/-- The phase after `cur` in the control cycle, wrapping around; the head
of the cycle when `cur` is not in it (spec section 3, ControlCycle). -/
def nextInCycle (cycle : List PhaseId) (cur : PhaseId) : PhaseId :=
  match cycle.dropWhile (fun p => !(p == cur)) with
  | _ :: next :: _ => next
  | _ => cycle.headD 0

/-- Fixed-Timer strategy: ignores queues, returns the next phase in cycle
order with the fixed configured duration (spec 4.2). -/
def fixedTimerDecide (cfg : Config) (cur : PhaseId) : Decision :=
  { phaseId := nextInCycle cfg.cycle cur, durationSec := cfg.baseGreen,
    confidence := 100, tag := StrategyTag.fixedTimer }

/-- Pressure score of a phase: the sum of the queue lengths of its
approaches (spec 4.2, the released-into term is not modelled, so queue
length alone). -/
def phasePressure (qs : Queues) (ph : Phase) : Nat :=
  (ph.approaches.map (queueOf qs)).sum

/-- Keep the better of the running best and a candidate: strictly higher
pressure wins, and on equal pressure the lower phase identifier wins
(spec 4.2, Max-Pressure tie-break). -/
def betterPhase (qs : Queues) (best cand : Phase) : Phase :=
  if phasePressure qs best < phasePressure qs cand then cand
  else if phasePressure qs cand = phasePressure qs best ∧ cand.id < best.id
  then cand
  else best

/-- Select the phase with maximal pressure, tie-break by lowest
identifier. -/
def selectMaxPressure (qs : Queues) : List Phase → Option Phase
  | [] => none
  | ph :: rest => some (rest.foldl (betterPhase qs) ph)

/-- Max-Pressure strategy: winning phase with duration = base duration +
a bounded extension proportional to the winning pressure (spec 4.2);
final clamping to the phase bounds happens at commit like for every
strategy. -/
def maxPressureDecide (cfg : Config) (qs : Queues) (cur : PhaseId) :
    Decision :=
  match selectMaxPressure qs cfg.phases with
  | some ph =>
      { phaseId := ph.id,
        durationSec := cfg.baseGreen +
          min cfg.extCap (cfg.extPerVehicle * phasePressure qs ph),
        confidence := 100, tag := StrategyTag.maxPressure }
  | none => fixedTimerDecide cfg cur

/-- Whether an advisory decision is acceptable verbatim: its confidence
reaches the configured threshold and its duration lies within the named
phase's `[minimum, maximum]` green (spec 4.2, RL-Advisory Adaptive). -/
def advisoryAcceptable (cfg : Config) (adv : Decision) : Bool :=
  match findPhase cfg adv.phaseId with
  | some ph =>
      decide (cfg.rlConfThreshold ≤ adv.confidence) &&
      decide (ph.minGreen ≤ adv.durationSec) &&
      decide (adv.durationSec ≤ ph.maxGreen)
  | none => false

/-- RL-Advisory Adaptive strategy: accept the advisory verbatim when
acceptable, otherwise fall back to the Max-Pressure decision for the same
snapshot; the second component is the `usedFallback` telemetry flag
(spec 4.2 and section 7, StaleAdvisory). -/
def adaptiveDecide (cfg : Config) (qs : Queues) (cur : PhaseId)
    (advisory : Option Decision) : Decision × Bool :=
  match advisory with
  | some adv =>
      if advisoryAcceptable cfg adv then (adv, false)
      else (maxPressureDecide cfg qs cur, true)
  | none => (maxPressureDecide cfg qs cur, true)

/-- Manual strategy: the pending operator command, or repeat the
previously committed phase for one tick (spec 4.2, Manual). -/
def manualDecide (cur : PhaseId) (cmd : Option (PhaseId × Nat)) :
    Decision :=
  match cmd with
  | some c =>
      { phaseId := c.1, durationSec := c.2, confidence := 100,
        tag := StrategyTag.manualTag }
  | none =>
      { phaseId := cur, durationSec := 1, confidence := 100,
        tag := StrategyTag.manualTag }

/-- The active strategy's decision for this tick, with the adaptive
fallback flag (spec 4.2, common contract). -/
def strategyDecide (cfg : Config) (m : Mode) (qs : Queues)
    (cur : PhaseId) (inp : TickInput) : Decision × Bool :=
  match m with
  | Mode.fixed => (fixedTimerDecide cfg cur, false)
  | Mode.heuristic => (maxPressureDecide cfg qs cur, false)
  | Mode.adaptive => adaptiveDecide cfg qs cur inp.advisory
  | Mode.manual => (manualDecide cur inp.manualCmd, false)

/-- Clamp a duration into a phase's `[minimum, maximum]` green. -/
def clampDur (ph : Phase) (d : Nat) : Nat :=
  max ph.minGreen (min ph.maxGreen d)

/-- The commit clamp wrapping every strategy identically (spec 4.3
failure semantics and design note): a known phase keeps its identity with
the duration clamped; an unknown phase is substituted by the Fixed-Timer
fallback, clamped the same way. Never an error. -/
def clampDecision (cfg : Config) (cur : PhaseId) (d : Decision) :
    Decision :=
  match findPhase cfg d.phaseId with
  | some ph => { d with durationSec := clampDur ph d.durationSec }
  | none =>
      let fb := fixedTimerDecide cfg cur
      match findPhase cfg fb.phaseId with
      | some ph => { fb with durationSec := clampDur ph fb.durationSec }
      | none => fb

/-- Serve the emergency queue in detection order, greedily merging every
queued approach that conflicts with none of the approaches already being
served into one preemption green; conflicting approaches stay queued
(spec 4.4, step 3). Returns the served set and the remaining queue. -/
def serveQueue (t : Topology) (served : List ApproachId) :
    List ApproachId → List ApproachId × List ApproachId
  | [] => (served, [])
  | c :: cs =>
      if noConflictWith t c served then
        serveQueue t (c :: served) cs
      else
        let r := serveQueue t served cs
        (r.1, c :: r.2)

/-- Append an approach to a list unless already present (queues keep
detection-timestamp order, never drop, spec section 7,
OverlappingPreemption). -/
def insertNew (l : List ApproachId) (a : ApproachId) : List ApproachId :=
  if l.contains a then l else l ++ [a]

/-- Overwrite or add one approach's reported queue length. -/
def setQueue (qs : Queues) (a : ApproachId) (n : Nat) : Queues :=
  if qs.any (fun e => e.1 == a) then
    qs.map (fun e => if e.1 == a then (a, n) else e)
  else qs ++ [(a, n)]

/-- Apply all buffered telemetry records (spec 4.5, step a). -/
def applyTelemetry (qs : Queues) (t : List (ApproachId × Nat)) : Queues :=
  t.foldl (fun acc e => setQueue acc e.1 e.2) qs

/-- Queue a mode-switch request; it is applied only at an ALL_RED
boundary (spec 4.2). -/
def queueModeReq (st : EngineState) (r : Option Mode) : EngineState :=
  match r with
  | some m => { st with pendingMode := some m }
  | none => st

/-- Apply emergency resolutions: clear the approaches' emergency flags
and cancel their queued preemption requests (spec 4.4, step 4 and spec
section 5, cancellation). -/
def processResolutions (st : EngineState) (rs : List ApproachId) :
    EngineState :=
  match rs with
  | [] => st
  | _ =>
      { st with
        emergFlags := st.emergFlags.filter (fun a => !rs.contains a),
        emergQueue := st.emergQueue.filter (fun a => !rs.contains a) }

/-- Whether the current sub-state already grants movement to approach
`a` (spec 4.4, step 1, second half). -/
def servesApproach (cfg : Config) (st : EngineState) (a : ApproachId) :
    Bool :=
  match st.sub with
  | SubState.green p =>
      match findPhase cfg p with
      | some ph => ph.approaches.contains a
      | none => false
  | SubState.preemptGreen served => served.contains a
  | _ => false

/-- Whether a sub-state is a normal green. -/
def isGreenSub : SubState → Bool
  | SubState.green _ => true
  | _ => false

/-- Process one emergency record (spec 4.4, step 1): below the confidence
threshold it is ignored; an approach already granted movement by the
current green has that green extended up to the emergency clearance
window without a mode change; otherwise the approach is flagged and
queued for preemption. -/
def processEmergency (cfg : Config) (st : EngineState)
    (ev : ApproachId × Nat) : EngineState :=
  if ev.2 < cfg.emergConfThreshold then st
  else if servesApproach cfg st ev.1 then
    { st with
      emergFlags := insertNew st.emergFlags ev.1,
      subDur := if isGreenSub st.sub then max st.subDur cfg.preemptWindow
                else st.subDur }
  else
    { st with
      emergFlags := insertNew st.emergFlags ev.1,
      emergQueue := insertNew st.emergQueue ev.1 }

/-- Drain all buffered emergency records (spec 4.5, step b). -/
def processEmergencies (cfg : Config) (st : EngineState)
    (evs : List (ApproachId × Nat)) : EngineState :=
  evs.foldl (processEmergency cfg) st

/-- Apply a queued mode switch, if any. -/
def applyPendingMode (st : EngineState) : EngineState :=
  match st.pendingMode with
  | some m => { st with mode := m, pendingMode := none }
  | none => st

/-- Enter a fresh GREEN: consult the active strategy, clamp its decision,
and commit the resulting phase and duration, recording the adaptive
fallback flag (spec 4.3, normal transition cycle and failure
semantics). -/
def enterGreen (cfg : Config) (inp : TickInput) (st : EngineState) :
    EngineState :=
  let dfb := strategyDecide cfg st.mode st.queues st.curPhase inp
  let c := clampDecision cfg st.curPhase dfb.1
  { st with sub := SubState.green c.phaseId, elapsed := 0,
            subDur := c.durationSec, curPhase := c.phaseId,
            usedFallback := dfb.2 }

/-- Advance the phase state machine by one tick (spec 4.3, `tick`): the
elapsed counter grows and, when it reaches the sub-state's required
duration, the next transition fires. A pending emergency shortens a
green's discretionary extension (never below the phase minimum), makes
the yellow flow into PREEMPT_CLEAR instead of ALL_RED, and preemption is
entered from ALL_RED boundaries otherwise; PREEMPT_GREEN ends (flag
cleared or maximum window elapsed) into PREEMPT_RECOVERY, which resumes
at the preempted-from phase and mode or serves the next queued
emergency. Mode switches apply on reaching ALL_RED. -/
def advance (cfg : Config) (inp : TickInput) (st : EngineState) :
    EngineState :=
  let e := st.elapsed + 1
  match st.sub with
  | SubState.green p =>
      let dur :=
        if st.emergQueue.isEmpty then st.subDur
        else
          match findPhase cfg p with
          | some ph => min st.subDur (max ph.minGreen st.elapsed)
          | none => st.subDur
      if dur ≤ e then
        { st with sub := SubState.yellow p, elapsed := 0,
                  subDur := yellowOf cfg p, curPhase := p }
      else { st with elapsed := e }
  | SubState.yellow p =>
      if st.subDur ≤ e then
        if st.emergQueue.isEmpty then
          applyPendingMode
            { st with sub := SubState.allRed, elapsed := 0,
                      subDur := allRedOf cfg p }
        else
          { st with sub := SubState.preemptClear, elapsed := 0,
                    subDur := allRedOf cfg p,
                    preemptedFrom := some (st.curPhase, st.mode) }
      else { st with elapsed := e }
  | SubState.allRed =>
      let st := applyPendingMode st
      if st.subDur ≤ e then
        if st.emergQueue.isEmpty then enterGreen cfg inp st
        else
          { st with sub := SubState.preemptClear, elapsed := 0,
                    subDur := allRedOf cfg st.curPhase,
                    preemptedFrom := some (st.curPhase, st.mode) }
      else { st with elapsed := e }
  | SubState.preemptClear =>
      if st.subDur ≤ e then
        let sr := serveQueue cfg.topo [] st.emergQueue
        if sr.1.isEmpty then
          { st with sub := SubState.preemptRecovery, elapsed := 0,
                    subDur := cfg.preemptRecoveryDur, emergQueue := sr.2 }
        else
          { st with sub := SubState.preemptGreen sr.1, elapsed := 0,
                    subDur := cfg.preemptWindow, emergQueue := sr.2 }
      else { st with elapsed := e }
  | SubState.preemptGreen served =>
      let flagActive := served.any (fun a => st.emergFlags.contains a)
      if !flagActive || cfg.preemptMaxWindow ≤ e then
        { st with sub := SubState.preemptRecovery, elapsed := 0,
                  subDur := cfg.preemptRecoveryDur,
                  emergFlags :=
                    st.emergFlags.filter (fun a => !served.contains a) }
      else { st with elapsed := e }
  | SubState.preemptRecovery =>
      if st.subDur ≤ e then
        if st.emergQueue.isEmpty then
          let st :=
            match st.preemptedFrom with
            | some pm =>
                { st with curPhase := pm.1, mode := pm.2,
                          preemptedFrom := none }
            | none => st
          enterGreen cfg inp st
        else
          { st with sub := SubState.preemptClear, elapsed := 0,
                    subDur := allRedOf cfg st.curPhase }
      else { st with elapsed := e }

/-- The buffered-input draining stage of a tick (spec 4.5, steps a-b). -/
def preTick (cfg : Config) (st : EngineState) (inp : TickInput) :
    EngineState :=
  processEmergencies cfg
    (processResolutions
      (queueModeReq
        { st with queues := applyTelemetry st.queues inp.telemetry }
        inp.modeReq)
      inp.resolutions)
    inp.emergencies

/-- One full control-loop tick (spec 4.5): drain buffered inputs, then
advance the state machine. -/
def tick (cfg : Config) (st : EngineState) (inp : TickInput) :
    EngineState :=
  advance cfg inp (preTick cfg st inp)

/-- Run the control loop over a list of tick inputs. -/
def run (cfg : Config) (st : EngineState) (L : List TickInput) :
    EngineState :=
  L.foldl (tick cfg) st

/-- Run `n` ticks with no buffered inputs. -/
def runQuiet (cfg : Config) (st : EngineState) : Nat → EngineState
  | 0 => st
  | n + 1 => tick cfg (runQuiet cfg st n) quietInput

/-- The initial state: ALL_RED with no prior phase, Fixed-Timer mode
(spec 4.3). -/
def initState (cfg : Config) : EngineState :=
  { sub := SubState.allRed, elapsed := 0,
    subDur := allRedOf cfg (cfg.cycle.headD 0),
    curPhase := cfg.cycle.headD 0, mode := Mode.fixed,
    preemptedFrom := none, pendingMode := none, emergQueue := [],
    emergFlags := [], queues := [], usedFallback := false }

/-- The approaches currently granted movement: the green phase's approach
set, or the served preemption set; empty in clearance states. -/
def movingApproaches (cfg : Config) (st : EngineState) :
    List ApproachId :=
  match st.sub with
  | SubState.green p =>
      match findPhase cfg p with
      | some ph => ph.approaches
      | none => []
  | SubState.preemptGreen served => served
  | _ => []

/-- How many phases are simultaneously granted movement: the state
machine's single sub-state makes this 0 or 1 by construction. -/
def grantingCount (st : EngineState) : Nat :=
  match st.sub with
  | SubState.green _ => 1
  | SubState.preemptGreen _ => 1
  | _ => 0

/-- Whether the state grants movement (GREEN or PREEMPT_GREEN). -/
def isGranting (st : EngineState) : Bool :=
  match st.sub with
  | SubState.green _ => true
  | SubState.preemptGreen _ => true
  | _ => false

/-- Whether a sub-state is a mandatory clearance interval (spec
invariant 4). -/
def mandatorySub : SubState → Bool
  | SubState.yellow _ => true
  | SubState.allRed => true
  | SubState.preemptClear => true
  | SubState.preemptRecovery => true
  | _ => false

/-- Whether a sub-state is PREEMPT_GREEN. -/
def isPreemptGreenSub : SubState → Bool
  | SubState.preemptGreen _ => true
  | _ => false

/-- Ticks of clearance guaranteed before any further grant of movement:
remaining yellow plus the vacated phase's all-red from a YELLOW state,
remaining duration of the other clearance states, 0 in granting states. -/
def clearanceBudget (cfg : Config) (st : EngineState) : Nat :=
  match st.sub with
  | SubState.green _ => 0
  | SubState.preemptGreen _ => 0
  | SubState.yellow p => (st.subDur - st.elapsed) + allRedOf cfg p
  | _ => st.subDur - st.elapsed

/-! ### Concrete configurations for witnesses

A five-approach topology in the shape of the spec's preemption-latency
scenario (N, S, E, W, NE as 0..4 with phases NS-green, EW-green,
NE-green), and the four-approach two-phase scenario of spec section 8. -/

/-- Five-approach demo topology: N=0, S=1, E=2, W=3, NE=4; the NS pair
conflicts with the EW pair, NE conflicts with all others. -/
def demoTopo : Topology :=
  { approaches := [0, 1, 2, 3, 4],
    conflictPairs :=
      [(0, 2), (2, 0), (0, 3), (3, 0), (1, 2), (2, 1), (1, 3), (3, 1),
       (4, 0), (0, 4), (4, 1), (1, 4), (4, 2), (2, 4), (4, 3), (3, 4)] }

/-- Phase NS-green. -/
def phNS : Phase :=
  { id := 0, approaches := [0, 1], minGreen := 5, maxGreen := 60,
    yellowDur := 3, allRedDur := 2 }

/-- Phase EW-green. -/
def phEW : Phase :=
  { id := 1, approaches := [2, 3], minGreen := 5, maxGreen := 60,
    yellowDur := 3, allRedDur := 2 }

/-- Phase NE-green. -/
def phNE : Phase :=
  { id := 2, approaches := [4], minGreen := 5, maxGreen := 60,
    yellowDur := 3, allRedDur := 2 }

/-- Five-approach demo configuration. -/
def demoConfig : Config :=
  { topo := demoTopo, phases := [phNS, phEW, phNE], cycle := [0, 1, 2],
    baseGreen := 10, extPerVehicle := 1, extCap := 30,
    preemptWindow := 28, preemptMaxWindow := 45, preemptRecoveryDur := 3,
    rlConfThreshold := 70, emergConfThreshold := 80 }

/-- Four-approach scenario configuration of spec section 8: NS and EW are
the only two phases. -/
def scConfig : Config :=
  { topo :=
      { approaches := [0, 1, 2, 3],
        conflictPairs :=
          [(0, 2), (2, 0), (0, 3), (3, 0), (1, 2), (2, 1), (1, 3),
           (3, 1)] },
    phases := [phNS, phEW], cycle := [0, 1],
    baseGreen := 10, extPerVehicle := 1, extCap := 30,
    preemptWindow := 28, preemptMaxWindow := 45, preemptRecoveryDur := 3,
    rlConfThreshold := 70, emergConfThreshold := 80 }

/-- Scenario queues {N:20, S:5, E:15, W:5}. -/
def scQueues : Queues := [(0, 20), (1, 5), (2, 15), (3, 5)]

/-- Queue snapshot of the immediately following cycle, after the NS green
has served the N and S queues (the scenario's drained state). -/
def scFollowQueues : Queues := [(0, 0), (1, 0), (2, 15), (3, 5)]

/-- A mid-green EW state of the five-approach demo: EW green committed
for 35 ticks, 2 ticks elapsed, Max-Pressure mode, no emergencies. -/
def demoGreenEW : EngineState :=
  { sub := SubState.green 1, elapsed := 2, subDur := 35, curPhase := 1,
    mode := Mode.heuristic, preemptedFrom := none, pendingMode := none,
    emergQueue := [], emergFlags := [], queues := [], usedFallback := false }

/-- The per-tick state snapshot emitted for external consumption (spec
4.3, `snapshot` and spec section 6), extended with the adaptive fallback
telemetry flag (spec 4.2 requires the fallback to be observable in
telemetry). -/
structure EngineSnapshot where
  phaseId : PhaseId
  subState : SubState
  remainingSec : Nat
  mode : Mode
  emergencyActive : Bool
  emergencyApproachId : Option ApproachId
  totalQueueByApproach : Queues
  usedFallback : Bool
  deriving DecidableEq, Repr

/-- Take an immutable snapshot of the engine state. -/
def engineSnapshot (st : EngineState) : EngineSnapshot :=
  { phaseId := st.curPhase, subState := st.sub,
    remainingSec := st.subDur - st.elapsed, mode := st.mode,
    emergencyActive := !st.emergFlags.isEmpty,
    emergencyApproachId :=
      if st.emergFlags.isEmpty then none else st.emergFlags.head?,
    totalQueueByApproach := st.queues, usedFallback := st.usedFallback }

/-! ### Helper lemmas -/

/-- One processed emergency record changes only the flag, queue and green
duration fields. -/
theorem processEmergency_frame (cfg : Config) (st : EngineState)
    (ev : ApproachId × Nat) :
    (processEmergency cfg st ev).sub = st.sub ∧
    (processEmergency cfg st ev).elapsed = st.elapsed ∧
    (processEmergency cfg st ev).curPhase = st.curPhase ∧
    (processEmergency cfg st ev).mode = st.mode ∧
    (processEmergency cfg st ev).preemptedFrom = st.preemptedFrom ∧
    (processEmergency cfg st ev).pendingMode = st.pendingMode ∧
    (processEmergency cfg st ev).usedFallback = st.usedFallback ∧
    (processEmergency cfg st ev).queues = st.queues := by
  unfold processEmergency
  split
  · exact ⟨rfl, rfl, rfl, rfl, rfl, rfl, rfl, rfl⟩
  split
  · exact ⟨rfl, rfl, rfl, rfl, rfl, rfl, rfl, rfl⟩
  · exact ⟨rfl, rfl, rfl, rfl, rfl, rfl, rfl, rfl⟩

/-- Outside a green, a processed emergency record leaves the required
duration alone. -/
theorem processEmergency_subDur (cfg : Config) (st : EngineState)
    (ev : ApproachId × Nat) (h : isGreenSub st.sub = false) :
    (processEmergency cfg st ev).subDur = st.subDur := by
  unfold processEmergency
  split
  · rfl
  split
  · simp [h]
  · rfl

/-- Draining the emergency buffer changes only the flag, queue and green
duration fields. -/
theorem processEmergencies_frame (cfg : Config) :
    ∀ (evs : List (ApproachId × Nat)) (st : EngineState),
    (processEmergencies cfg st evs).sub = st.sub ∧
    (processEmergencies cfg st evs).elapsed = st.elapsed ∧
    (processEmergencies cfg st evs).curPhase = st.curPhase ∧
    (processEmergencies cfg st evs).mode = st.mode ∧
    (processEmergencies cfg st evs).preemptedFrom = st.preemptedFrom ∧
    (processEmergencies cfg st evs).pendingMode = st.pendingMode ∧
    (processEmergencies cfg st evs).usedFallback = st.usedFallback ∧
    (isGreenSub st.sub = false →
      (processEmergencies cfg st evs).subDur = st.subDur) := by
  intro evs
  induction evs with
  | nil =>
      intro st
      exact ⟨rfl, rfl, rfl, rfl, rfl, rfl, rfl, fun _ => rfl⟩
  | cons e t ih =>
      intro st
      obtain ⟨s1, s2, s3, s4, s5, s6, s7, s8⟩ := processEmergency_frame cfg st e
      obtain ⟨i1, i2, i3, i4, i5, i6, i7, i8⟩ := ih (processEmergency cfg st e)
      have h1 : processEmergencies cfg st (e :: t) =
          processEmergencies cfg (processEmergency cfg st e) t := rfl
      rw [h1]
      refine ⟨i1.trans s1, i2.trans s2, i3.trans s3, i4.trans s4,
        i5.trans s5, i6.trans s6, i7.trans s7, ?_⟩
      intro hg
      have hg' : isGreenSub (processEmergency cfg st e).sub = false := by
        rw [s1]; exact hg
      rw [i8 hg', processEmergency_subDur cfg st e hg]

/-- The input-draining stage of a tick changes only the queue-state, flag,
queue, pending-mode and green duration fields. -/
theorem preTick_frame (cfg : Config) (st : EngineState) (inp : TickInput) :
    (preTick cfg st inp).sub = st.sub ∧
    (preTick cfg st inp).elapsed = st.elapsed ∧
    (preTick cfg st inp).curPhase = st.curPhase ∧
    (preTick cfg st inp).mode = st.mode ∧
    (preTick cfg st inp).preemptedFrom = st.preemptedFrom ∧
    (preTick cfg st inp).usedFallback = st.usedFallback ∧
    (isGreenSub st.sub = false → (preTick cfg st inp).subDur = st.subDur) := by
  unfold preTick
  have hA :
      (queueModeReq
        { st with queues := applyTelemetry st.queues inp.telemetry }
        inp.modeReq).sub = st.sub ∧
      (queueModeReq
        { st with queues := applyTelemetry st.queues inp.telemetry }
        inp.modeReq).elapsed = st.elapsed ∧
      (queueModeReq
        { st with queues := applyTelemetry st.queues inp.telemetry }
        inp.modeReq).curPhase = st.curPhase ∧
      (queueModeReq
        { st with queues := applyTelemetry st.queues inp.telemetry }
        inp.modeReq).mode = st.mode ∧
      (queueModeReq
        { st with queues := applyTelemetry st.queues inp.telemetry }
        inp.modeReq).preemptedFrom = st.preemptedFrom ∧
      (queueModeReq
        { st with queues := applyTelemetry st.queues inp.telemetry }
        inp.modeReq).usedFallback = st.usedFallback ∧
      (queueModeReq
        { st with queues := applyTelemetry st.queues inp.telemetry }
        inp.modeReq).subDur = st.subDur := by
    unfold queueModeReq
    cases inp.modeReq <;> exact ⟨rfl, rfl, rfl, rfl, rfl, rfl, rfl⟩
  set B := queueModeReq
    { st with queues := applyTelemetry st.queues inp.telemetry }
    inp.modeReq with hBdef
  obtain ⟨a1, a2, a3, a4, a5, a6, a7⟩ := hA
  have hC :
      (processResolutions B inp.resolutions).sub = B.sub ∧
      (processResolutions B inp.resolutions).elapsed = B.elapsed ∧
      (processResolutions B inp.resolutions).curPhase = B.curPhase ∧
      (processResolutions B inp.resolutions).mode = B.mode ∧
      (processResolutions B inp.resolutions).preemptedFrom =
        B.preemptedFrom ∧
      (processResolutions B inp.resolutions).usedFallback =
        B.usedFallback ∧
      (processResolutions B inp.resolutions).subDur = B.subDur := by
    unfold processResolutions
    cases inp.resolutions <;> exact ⟨rfl, rfl, rfl, rfl, rfl, rfl, rfl⟩
  set C := processResolutions B inp.resolutions with hCdef
  obtain ⟨c1, c2, c3, c4, c5, c6, c7⟩ := hC
  obtain ⟨d1, d2, d3, d4, d5, d6, d7, d8⟩ :=
    processEmergencies_frame cfg inp.emergencies C
  refine ⟨d1.trans (c1.trans a1), d2.trans (c2.trans a2),
    d3.trans (c3.trans a3), d4.trans (c4.trans a4),
    d5.trans (c5.trans a5), d7.trans (c6.trans a6), ?_⟩
  intro hg
  have hgC : isGreenSub C.sub = false := by
    rw [c1, a1]; exact hg
  rw [d8 hgC, c7, a7]

/-- A quiet tick is just a state-machine advance: draining empty buffers
is the identity. -/
theorem tick_quiet (cfg : Config) (s : EngineState) :
    tick cfg s quietInput = advance cfg quietInput s := rfl

/-! ### Claim C9 -/

/-- C9: a `GET /healthz` request is answered `200` with body status
`healthy` exactly when the database probe `SELECT 1` succeeds; when the
probe throws, it is answered `503` with body status `unhealthy` and error
`Database connection failed`. -/
theorem claim_C9_healthz :
    (∀ probe : Except String Unit,
      ((healthzHandler probe).httpStatus = 200 ∧
        (healthzHandler probe).status = "healthy") ↔
      ∃ u, probe = Except.ok u) ∧
    (∀ msg : String,
      healthzHandler (Except.error msg) =
        { httpStatus := 503, status := "unhealthy",
          error := some "Database connection failed" }) := by
  constructor
  · intro probe
    cases probe with
    | ok u => simp [healthzHandler]
    | error msg => simp [healthzHandler]
  · intro msg
    rfl

/-! ### Claim C10 -/

/-- C10: a request to the ingest routes whose Authorization header starts
with `Bearer ` makes the ingest limiter's skip predicate true and is never
rejected by the per-minute ingest rate limit, regardless of the token's
value; a request without such a header is subject to the
1000-per-minute-per-IP limit. -/
theorem claim_C10_ingest_rate_limit :
    (∀ (auth : String) (prior : Nat), strStartsWith auth "Bearer " = true →
      ingestSkip (some auth) = true ∧
      rateLimitRejects ingestLimiterCfg (ingestSkip (some auth)) prior =
        false) ∧
    ingestSkip none = false ∧
    ingestLimiterCfg.maxReq = 1000 ∧
    ingestLimiterCfg.windowMs = 60000 ∧
    (∀ prior : Nat, prior < 1000 →
      rateLimitRejects ingestLimiterCfg (ingestSkip none) prior = false) ∧
    (∀ prior : Nat, 1000 ≤ prior →
      rateLimitRejects ingestLimiterCfg (ingestSkip none) prior = true) := by
  refine ⟨?_, rfl, rfl, rfl, ?_, ?_⟩
  · intro auth prior h
    constructor
    · exact h
    · simp [rateLimitRejects, ingestSkip, h]
  · intro prior h
    simp [rateLimitRejects, ingestSkip, ingestLimiterCfg]
    omega
  · intro prior h
    simp [rateLimitRejects, ingestSkip, ingestLimiterCfg]
    omega

/-- Witness for C10: a concrete request with an arbitrary (not validated)
bearer token is skipped even far beyond the window cap, and a concrete
header-less request at the cap is limited. -/
theorem claim_C10_witness :
    (ingestSkip (some "Bearer not-a-real-token") = true ∧
      rateLimitRejects ingestLimiterCfg
        (ingestSkip (some "Bearer not-a-real-token")) 5000 = false) ∧
    rateLimitRejects ingestLimiterCfg (ingestSkip none) 1000 = true :=
  ⟨claim_C10_ingest_rate_limit.1 "Bearer not-a-real-token" 5000 (by decide),
   claim_C10_ingest_rate_limit.2.2.2.2.2 1000 (by decide)⟩

/-! ### Claim C8 -/

/-- C8 counterexample: the per-tick snapshot as read by the dashboard
consumer does not have exactly the claimed shape: its field set differs
from the claimed one, the consumer reads a field named `phase` which the
claimed shape lacks, and none of the claimed `phaseId`, `subState`,
`remainingSec`, `emergencyApproachId`, `totalQueueByApproach` names occur
in the consumer's field set. -/
theorem claim_C8_counterexample :
    decide (intersectionViewSnapshotFields = specSnapshotFields) = false ∧
    intersectionViewSnapshotFields.contains "phase" = true ∧
    specSnapshotFields.contains "phase" = false ∧
    intersectionViewSnapshotFields.contains "phaseId" = false ∧
    intersectionViewSnapshotFields.contains "subState" = false ∧
    intersectionViewSnapshotFields.contains "remainingSec" = false ∧
    intersectionViewSnapshotFields.contains "emergencyApproachId" = false ∧
    intersectionViewSnapshotFields.contains "totalQueueByApproach" =
      false := by
  decide

/-- C8 amended: the per-tick snapshot consumed by the dashboard carries
the fields `phase`, `remainingSeconds`, `controllerMode`,
`emergencyActive`, `emergencyDirection`, `emergencyDuration`, `queues`
and the performance fields `throughputPerMin`, `avgWaitTime`,
`systemLatency`, `detectionFps` (not the claimed
`{phaseId, subState, remainingSec, mode, emergencyActive,
emergencyApproachId?, totalQueueByApproach}` shape); the emergency
approach field, `emergencyDirection`, drives the emergency alert only
when an emergency is active. -/
theorem claim_C8_amended :
    intersectionViewSnapshotFields =
      ["phase", "remainingSeconds", "controllerMode", "emergencyActive",
       "emergencyDirection", "emergencyDuration", "queues",
       "throughputPerMin", "avgWaitTime", "systemLatency",
       "detectionFps"] ∧
    (∀ td : TrafficData, emergencyAlertShown td = true →
      td.emergencyActive = true ∧ td.emergencyDirection.isSome = true) := by
  refine ⟨rfl, ?_⟩
  intro td h
  unfold emergencyAlertShown at h
  exact And.imp id id (Bool.and_eq_true_iff.mp h)

/-- Witness for C8 at a concrete snapshot whose alert is shown. -/
theorem claim_C8_witness :
    (TrafficData.mk (some "NS") (some 10) (some "auto") true (some "NE")
        (some 20) [("N", 3)] none none none none).emergencyActive = true ∧
    (TrafficData.mk (some "NS") (some 10) (some "auto") true (some "NE")
        (some 20) [("N", 3)] none none none
        none).emergencyDirection.isSome = true :=
  claim_C8_amended.2
    (TrafficData.mk (some "NS") (some 10) (some "auto") true (some "NE")
      (some 20) [("N", 3)] none none none none) (by decide)

/-! ### Claim C4 -/

/-- C4: for every strategy decision naming a configured phase, the
committed green duration is exactly the proposed duration clamped to
`[minimum, maximum]` green — proposing minimum−1 commits the minimum and
proposing maximum+1 commits the maximum — and a decision naming an
unknown phase is corrected by substituting the Fixed-Timer fallback,
clamped identically; the clamp is a total function, so no decision is
rejected with an error. -/
theorem claim_C4_clamping :
    (∀ (cfg : Config) (cur : PhaseId) (d : Decision) (ph : Phase),
      findPhase cfg d.phaseId = some ph →
      0 < ph.minGreen → ph.minGreen ≤ ph.maxGreen →
      (clampDecision cfg cur d).phaseId = d.phaseId ∧
      (clampDecision cfg cur d).durationSec =
        max ph.minGreen (min ph.maxGreen d.durationSec) ∧
      ph.minGreen ≤ (clampDecision cfg cur d).durationSec ∧
      (clampDecision cfg cur d).durationSec ≤ ph.maxGreen ∧
      (d.durationSec = ph.minGreen - 1 →
        (clampDecision cfg cur d).durationSec = ph.minGreen) ∧
      (d.durationSec = ph.maxGreen + 1 →
        (clampDecision cfg cur d).durationSec = ph.maxGreen)) ∧
    (∀ (cfg : Config) (cur : PhaseId) (d : Decision),
      findPhase cfg d.phaseId = none →
      clampDecision cfg cur d =
        clampDecision cfg cur (fixedTimerDecide cfg cur)) := by
  constructor
  · intro cfg cur d ph hf hpos hle
    simp only [clampDecision, hf, clampDur]
    and_intros <;> first | trivial | (intros; omega)
  · intro cfg cur d hf
    simp only [clampDecision, hf]
    cases h : findPhase cfg (fixedTimerDecide cfg cur).phaseId <;>
      simp [h]

/-- Witness for C4: in the demo configuration, proposing 4 = minimum−1
for phase NS commits exactly the minimum 5, proposing 61 = maximum+1
commits exactly the maximum 60, and a decision naming the unknown phase
99 is substituted by the clamped Fixed-Timer fallback. -/
theorem claim_C4_witness :
    ((clampDecision demoConfig 0 (Decision.mk 0 4 100
        StrategyTag.manualTag)).durationSec = 5 ∧
      (clampDecision demoConfig 0 (Decision.mk 0 61 100
        StrategyTag.manualTag)).durationSec = 60) ∧
    clampDecision demoConfig 0 (Decision.mk 99 7 100
        StrategyTag.manualTag) =
      clampDecision demoConfig 0 (fixedTimerDecide demoConfig 0) := by
  refine ⟨⟨?_, ?_⟩, ?_⟩
  · exact (claim_C4_clamping.1 demoConfig 0
      (Decision.mk 0 4 100 StrategyTag.manualTag) phNS (by decide)
      (by decide) (by decide)).2.2.2.2.1 (by decide)
  · exact (claim_C4_clamping.1 demoConfig 0
      (Decision.mk 0 61 100 StrategyTag.manualTag) phNS (by decide)
      (by decide) (by decide)).2.2.2.2.2 (by decide)
  · exact claim_C4_clamping.2 demoConfig 0
      (Decision.mk 99 7 100 StrategyTag.manualTag) (by decide)

/-! ### Claim C6 -/

/-- C6: in RL-Advisory Adaptive mode the advisory decision is accepted
verbatim if and only if its confidence reaches the configured threshold
and its duration lies within the named phase's `[minimum, maximum]`
green; otherwise (including a missing advisory) the tick's decision is
the Max-Pressure decision for the same snapshot, the caller observes no
failure (the strategy is a total function), and the `usedFallback` flag
is set and appears in the emitted snapshot when an adaptive-mode tick
enters a fresh green. -/
theorem claim_C6_adaptive_fallback :
    (∀ (cfg : Config) (qs : Queues) (cur : PhaseId) (adv : Decision),
      adaptiveDecide cfg qs cur (some adv) = (adv, false) ↔
        advisoryAcceptable cfg adv = true) ∧
    (∀ (cfg : Config) (adv : Decision),
      advisoryAcceptable cfg adv = true ↔
        ∃ ph, findPhase cfg adv.phaseId = some ph ∧
          cfg.rlConfThreshold ≤ adv.confidence ∧
          ph.minGreen ≤ adv.durationSec ∧
          adv.durationSec ≤ ph.maxGreen) ∧
    (∀ (cfg : Config) (qs : Queues) (cur : PhaseId) (adv : Decision),
      advisoryAcceptable cfg adv = false →
      adaptiveDecide cfg qs cur (some adv) =
        (maxPressureDecide cfg qs cur, true)) ∧
    (∀ (cfg : Config) (qs : Queues) (cur : PhaseId),
      adaptiveDecide cfg qs cur none =
        (maxPressureDecide cfg qs cur, true)) ∧
    (∀ (cfg : Config) (st : EngineState) (adv : Decision),
      st.sub = SubState.allRed → st.subDur ≤ st.elapsed + 1 →
      st.emergQueue = [] → st.pendingMode = none →
      st.mode = Mode.adaptive →
      (engineSnapshot (tick cfg st (TickInput.mk [] [] [] none none
          (some adv)))).usedFallback =
        (adaptiveDecide cfg st.queues st.curPhase (some adv)).2 ∧
      (tick cfg st (TickInput.mk [] [] [] none none (some adv))).sub =
        SubState.green (clampDecision cfg st.curPhase
          (adaptiveDecide cfg st.queues st.curPhase (some adv)).1).phaseId ∧
      (tick cfg st (TickInput.mk [] [] [] none none
          (some adv))).subDur =
        (clampDecision cfg st.curPhase
          (adaptiveDecide cfg st.queues st.curPhase
            (some adv)).1).durationSec) := by
  refine ⟨?_, ?_, ?_, ?_, ?_⟩
  · intro cfg qs cur adv
    by_cases ha : advisoryAcceptable cfg adv = true
    · simp [adaptiveDecide, ha]
    · simp [adaptiveDecide, ha]
  · intro cfg adv
    unfold advisoryAcceptable
    cases h : findPhase cfg adv.phaseId with
    | some ph => simp [h, and_assoc]
    | none => simp [h]
  · intro cfg qs cur adv h
    simp [adaptiveDecide, h]
  · intro cfg qs cur
    rfl
  · intro cfg st adv hsub hdone hq hpend hmode
    obtain ⟨sb, el, dur, cur, mo, pf, pend, equ, ef, qs, uf⟩ := st
    simp only at hsub hdone hq hpend hmode
    subst hsub hq hpend hmode
    simp only [tick, preTick, applyTelemetry, queueModeReq,
      processResolutions, processEmergencies, List.foldl, advance,
      applyPendingMode, enterGreen, strategyDecide, engineSnapshot]
    rw [if_pos hdone]
    simp

/-- Witness for C6: a below-threshold advisory (confidence 0.50 < 0.70)
at a concrete ALL_RED boundary state of the demo configuration falls back
to Max-Pressure with the flag set in the emitted snapshot. -/
theorem claim_C6_witness :
    (engineSnapshot (tick demoConfig
        (EngineState.mk SubState.allRed 1 2 0 Mode.adaptive none none []
          [] [(0, 4)] false)
        (TickInput.mk [] [] [] none none
          (some (Decision.mk 1 20 50
            StrategyTag.rlAdvisory))))).usedFallback =
      (adaptiveDecide demoConfig [(0, 4)] 0
        (some (Decision.mk 1 20 50 StrategyTag.rlAdvisory))).2 ∧
    (tick demoConfig
        (EngineState.mk SubState.allRed 1 2 0 Mode.adaptive none none []
          [] [(0, 4)] false)
        (TickInput.mk [] [] [] none none
          (some (Decision.mk 1 20 50 StrategyTag.rlAdvisory)))).sub =
      SubState.green (clampDecision demoConfig 0
        (adaptiveDecide demoConfig [(0, 4)] 0
          (some (Decision.mk 1 20 50
            StrategyTag.rlAdvisory))).1).phaseId := by
  have h := claim_C6_adaptive_fallback.2.2.2.2 demoConfig
    (EngineState.mk SubState.allRed 1 2 0 Mode.adaptive none none [] []
      [(0, 4)] false)
    (Decision.mk 1 20 50 StrategyTag.rlAdvisory)
    rfl (by decide) rfl rfl rfl
  exact ⟨h.1, h.2.1⟩

/-! ### Claim C5 -/

/-- The running best kept by the Max-Pressure fold is one of its two
arguments, has pressure at least both, and on a pressure tie has the
smaller identifier. -/
theorem betterPhase_spec (qs : Queues) (a b : Phase) :
    (betterPhase qs a b = a ∨ betterPhase qs a b = b) ∧
    phasePressure qs a ≤ phasePressure qs (betterPhase qs a b) ∧
    phasePressure qs b ≤ phasePressure qs (betterPhase qs a b) ∧
    (phasePressure qs a = phasePressure qs (betterPhase qs a b) →
      (betterPhase qs a b).id ≤ a.id) ∧
    (phasePressure qs b = phasePressure qs (betterPhase qs a b) →
      (betterPhase qs a b).id ≤ b.id) := by
  unfold betterPhase
  by_cases h1 : phasePressure qs a < phasePressure qs b
  · rw [if_pos h1]
    refine ⟨Or.inr rfl, Nat.le_of_lt h1, Nat.le_refl _, ?_,
      fun _ => Nat.le_refl _⟩
    intro he
    omega
  · rw [if_neg h1]
    by_cases h2 : phasePressure qs b = phasePressure qs a ∧ b.id < a.id
    · rw [if_pos h2]
      obtain ⟨h2a, h2b⟩ := h2
      refine ⟨Or.inr rfl, by omega, Nat.le_refl _, ?_,
        fun _ => Nat.le_refl _⟩
      intro he
      exact Nat.le_of_lt h2b
    · rw [if_neg h2]
      refine ⟨Or.inl rfl, Nat.le_refl _, by omega,
        fun _ => Nat.le_refl _, ?_⟩
      intro he
      rcases not_and_or.mp h2 with hc | hc
      · exact absurd he hc
      · exact Nat.le_of_not_lt hc

/-- The Max-Pressure fold returns its accumulator or a list element,
maximizes the pressure over both, and minimizes the identifier among the
pressure maximizers. -/
theorem foldl_betterPhase_spec (qs : Queues) :
    ∀ (l : List Phase) (acc : Phase),
      (l.foldl (betterPhase qs) acc = acc ∨
        l.foldl (betterPhase qs) acc ∈ l) ∧
      phasePressure qs acc ≤
        phasePressure qs (l.foldl (betterPhase qs) acc) ∧
      (∀ x ∈ l, phasePressure qs x ≤
        phasePressure qs (l.foldl (betterPhase qs) acc)) ∧
      (phasePressure qs acc =
          phasePressure qs (l.foldl (betterPhase qs) acc) →
        (l.foldl (betterPhase qs) acc).id ≤ acc.id) ∧
      (∀ x ∈ l, phasePressure qs x =
          phasePressure qs (l.foldl (betterPhase qs) acc) →
        (l.foldl (betterPhase qs) acc).id ≤ x.id) := by
  intro l
  induction l with
  | nil =>
      intro acc
      exact ⟨Or.inl rfl, Nat.le_refl _, by simp, fun _ => Nat.le_refl _,
        by simp⟩
  | cons b t ih =>
      intro acc
      have hfold : (b :: t).foldl (betterPhase qs) acc =
          t.foldl (betterPhase qs) (betterPhase qs acc b) := rfl
      obtain ⟨m1, m2, m3, m4, m5⟩ := ih (betterPhase qs acc b)
      obtain ⟨b1, b2, b3, b4, b5⟩ := betterPhase_spec qs acc b
      rw [hfold]
      refine ⟨?_, ?_, ?_, ?_, ?_⟩
      · rcases m1 with hm | hm
        · rcases b1 with hb | hb
          · exact Or.inl (hm.trans hb)
          · exact Or.inr (by rw [hm, hb]; exact List.mem_cons_self b t)
        · exact Or.inr (List.mem_cons_of_mem b hm)
      · exact Nat.le_trans b2 m2
      · intro x hx
        rcases List.mem_cons.mp hx with hb | hxt
        · rw [hb]; exact Nat.le_trans b3 m2
        · exact m3 x hxt
      · intro he
        have hBe : phasePressure qs acc =
            phasePressure qs (betterPhase qs acc b) := by omega
        have := m4 (by omega)
        exact Nat.le_trans this (b4 hBe)
      · intro x hx he
        rcases List.mem_cons.mp hx with hb | hxt
        · subst hb
          have hBr := m4 (by omega)
          exact Nat.le_trans hBr (b5 (by omega))
        · exact m5 x hxt he

/-- C5: the Max-Pressure strategy selects a configured phase with maximal
pressure, breaking ties by lowest phase identifier; it is deterministic
(identical queue snapshots yield identical decisions); and in the
four-approach scenario with queues {N:20, S:5, E:15, W:5} and phases NS
and EW only, NS is selected (pressure 25 against 20) with green extended
beyond the base duration, and EW is selected on the immediately following
cycle, whose snapshot has the served NS queues drained. -/
theorem claim_C5_max_pressure :
    (∀ (qs : Queues) (l : List Phase) (ph : Phase),
      selectMaxPressure qs l = some ph →
      ph ∈ l ∧
      (∀ x ∈ l, phasePressure qs x ≤ phasePressure qs ph) ∧
      (∀ x ∈ l, phasePressure qs x = phasePressure qs ph →
        ph.id ≤ x.id)) ∧
    (∀ (cfg : Config) (qs qs' : Queues) (cur : PhaseId), qs = qs' →
      maxPressureDecide cfg qs cur = maxPressureDecide cfg qs' cur) ∧
    (phasePressure scQueues phNS = 25 ∧
      phasePressure scQueues phEW = 20 ∧
      (maxPressureDecide scConfig scQueues 1).phaseId = phNS.id ∧
      scConfig.baseGreen <
        (maxPressureDecide scConfig scQueues 1).durationSec ∧
      (maxPressureDecide scConfig scFollowQueues 0).phaseId =
        phEW.id) := by
  refine ⟨?_, ?_, ?_⟩
  · intro qs l ph hsel
    cases l with
    | nil => exact absurd hsel (by simp [selectMaxPressure])
    | cons hd t =>
        have hph : t.foldl (betterPhase qs) hd = ph := by
          have : some (t.foldl (betterPhase qs) hd) = some ph := hsel
          exact Option.some.inj this
        obtain ⟨m1, m2, m3, m4, m5⟩ := foldl_betterPhase_spec qs t hd
        rw [hph] at m1 m2 m3 m4 m5
        refine ⟨?_, ?_, ?_⟩
        · rcases m1 with hm | hm
          · rw [hm]; exact List.mem_cons_self hd t
          · exact List.mem_cons_of_mem hd hm
        · intro x hx
          rcases List.mem_cons.mp hx with hb | hxt
          · rw [hb]; exact m2
          · exact m3 x hxt
        · intro x hx he
          rcases List.mem_cons.mp hx with hb | hxt
          · rw [hb]; exact m4 (by rw [hb] at he; omega)
          · exact m5 x hxt he
  · intro cfg qs qs' cur h
    rw [h]
  · refine ⟨by decide, by decide, by decide, by decide, by decide⟩

/-- Witness for C5: instantiating the selection characterization at the
scenario snapshot shows NS is the unique maximal-pressure choice, and
determinism at the same snapshot twice yields the same decision. -/
theorem claim_C5_witness :
    (phNS ∈ scConfig.phases ∧
      (∀ x ∈ scConfig.phases,
        phasePressure scQueues x ≤ phasePressure scQueues phNS) ∧
      (∀ x ∈ scConfig.phases,
        phasePressure scQueues x = phasePressure scQueues phNS →
          phNS.id ≤ x.id)) ∧
    maxPressureDecide scConfig scQueues 1 =
      maxPressureDecide scConfig scQueues 1 :=
  ⟨claim_C5_max_pressure.1 scQueues scConfig.phases phNS (by decide),
   claim_C5_max_pressure.2.1 scConfig scQueues scQueues 1 rfl⟩

/-! ### Claim C7 -/

/-- Resolutions commute with updating the queued mode switch. -/
theorem processResolutions_pendingUpdate (s : EngineState)
    (x : Option Mode) (rs : List ApproachId) :
    processResolutions { s with pendingMode := x } rs =
      { processResolutions s rs with pendingMode := x } := by
  cases rs <;> rfl

/-- One emergency record commutes with updating the queued mode
switch. -/
theorem processEmergency_pendingUpdate (cfg : Config) (s : EngineState)
    (x : Option Mode) (ev : ApproachId × Nat) :
    processEmergency cfg { s with pendingMode := x } ev =
      { processEmergency cfg s ev with pendingMode := x } := by
  have hs : servesApproach cfg { s with pendingMode := x } ev.1 =
      servesApproach cfg s ev.1 := rfl
  unfold processEmergency
  rw [hs]
  split
  · rfl
  split
  · rfl
  · rfl

/-- Draining the emergency buffer commutes with updating the queued mode
switch. -/
theorem processEmergencies_pendingUpdate (cfg : Config) :
    ∀ (evs : List (ApproachId × Nat)) (s : EngineState) (x : Option Mode),
    processEmergencies cfg { s with pendingMode := x } evs =
      { processEmergencies cfg s evs with pendingMode := x } := by
  intro evs
  induction evs with
  | nil => intro s x; rfl
  | cons e t ih =>
      intro s x
      have h1 : processEmergencies cfg { s with pendingMode := x }
          (e :: t) =
          processEmergencies cfg
            (processEmergency cfg { s with pendingMode := x } e) t := rfl
      have h2 : processEmergencies cfg s (e :: t) =
          processEmergencies cfg (processEmergency cfg s e) t := rfl
      rw [h1, h2, processEmergency_pendingUpdate cfg s x e,
        ih (processEmergency cfg s e) x]

/-- A queued mode switch rides through the input-draining stage: draining
with the request is draining without it plus the queued request. -/
theorem preTick_modeReq (cfg : Config) (st : EngineState)
    (tel evs : List (ApproachId × Nat)) (rs : List ApproachId)
    (mc : Option (PhaseId × Nat)) (adv : Option Decision) (m : Mode) :
    preTick cfg st (TickInput.mk tel evs rs (some m) mc adv) =
      { preTick cfg st (TickInput.mk tel evs rs none mc adv) with
        pendingMode := some m } := by
  unfold preTick queueModeReq
  rw [processResolutions_pendingUpdate, processEmergencies_pendingUpdate]

/-- Without a request, the input-draining stage leaves the queued mode
switch alone. -/
theorem preTick_pendingMode_none (cfg : Config) (st : EngineState)
    (tel evs : List (ApproachId × Nat)) (rs : List ApproachId)
    (mc : Option (PhaseId × Nat)) (adv : Option Decision) :
    (preTick cfg st
      (TickInput.mk tel evs rs none mc adv)).pendingMode =
      st.pendingMode := by
  unfold preTick queueModeReq
  have h1 := (processEmergencies_frame cfg evs
    (processResolutions
      { st with queues := applyTelemetry st.queues tel } rs)).2.2.2.2.2.1
  rw [h1]
  cases rs <;> rfl

/-- The state-machine advance reads the tick input only through the
operator command and the advisory decision. -/
theorem advance_inp_congr (cfg : Config) (s : EngineState)
    (i1 i0 : TickInput) (h1 : i1.manualCmd = i0.manualCmd)
    (h2 : i1.advisory = i0.advisory) :
    advance cfg i1 s = advance cfg i0 s := by
  unfold advance enterGreen strategyDecide
  rw [h1, h2]

/-- While the machine is not at (and does not reach) ALL_RED, advancing
with a queued mode switch produces the same signal state, rotation
pointer and active mode as advancing without it, with the switch still
queued: the request changes nothing until an ALL_RED boundary. -/
theorem advance_pendingUpdate (cfg : Config) (inp : TickInput)
    (m : Mode) (s : EngineState) (hpend : s.pendingMode = none)
    (hsub : s.sub ≠ SubState.allRed)
    (hres : (advance cfg inp { s with pendingMode := some m }).sub ≠
      SubState.allRed) :
    (advance cfg inp { s with pendingMode := some m }).sub =
      (advance cfg inp s).sub ∧
    (advance cfg inp { s with pendingMode := some m }).elapsed =
      (advance cfg inp s).elapsed ∧
    (advance cfg inp { s with pendingMode := some m }).subDur =
      (advance cfg inp s).subDur ∧
    (advance cfg inp { s with pendingMode := some m }).curPhase =
      (advance cfg inp s).curPhase ∧
    (advance cfg inp { s with pendingMode := some m }).mode =
      (advance cfg inp s).mode ∧
    (advance cfg inp { s with pendingMode := some m }).usedFallback =
      (advance cfg inp s).usedFallback ∧
    (advance cfg inp { s with pendingMode := some m }).pendingMode =
      some m := by
  obtain ⟨sb, el, dur, cur, mo, pf, pend, equ, ef, qs, uf⟩ := s
  simp only at hpend hsub
  subst hpend
  cases sb with
  | green p =>
      simp only [advance]
      split <;> split <;> exact ⟨rfl, rfl, rfl, rfl, rfl, rfl, rfl⟩
  | yellow p =>
      by_cases hc1 : dur ≤ el + 1
      · by_cases hc2 : List.isEmpty equ = true
        · exfalso
          apply hres
          simp [advance, applyPendingMode, hc1, hc2]
        · simp [advance, applyPendingMode, hc1, hc2]
      · simp [advance, hc1]
  | allRed => exact absurd rfl hsub
  | preemptClear =>
      simp only [advance]
      split
      · split <;> exact ⟨rfl, rfl, rfl, rfl, rfl, rfl, rfl⟩
      · exact ⟨rfl, rfl, rfl, rfl, rfl, rfl, rfl⟩
  | preemptGreen served =>
      simp only [advance]
      split <;> exact ⟨rfl, rfl, rfl, rfl, rfl, rfl, rfl⟩
  | preemptRecovery =>
      simp only [advance]
      split
      · split
        · cases pf <;> exact ⟨rfl, rfl, rfl, rfl, rfl, rfl, rfl⟩
        · exact ⟨rfl, rfl, rfl, rfl, rfl, rfl, rfl⟩
      · exact ⟨rfl, rfl, rfl, rfl, rfl, rfl, rfl⟩

/-- From ALL_RED, a tick first applies the queued mode switch; the mode
of the successor state is the switched mode whatever transition fires. -/
theorem advance_mode_of_allRed (cfg : Config) (inp : TickInput)
    (s : EngineState) (hsub : s.sub = SubState.allRed) :
    (advance cfg inp s).mode = (applyPendingMode s).mode := by
  obtain ⟨sb, el, dur, cur, mo, pf, pend, equ, ef, qs, uf⟩ := s
  simp only at hsub
  subst hsub
  cases pend with
  | none =>
      simp only [advance, applyPendingMode]
      split
      · split
        · rfl
        · rfl
      · rfl
  | some m' =>
      simp only [advance, applyPendingMode]
      split
      · split
        · rfl
        · rfl
      · rfl

/-- C7: a mode-switch request takes effect only when the state machine
next reaches ALL_RED: a tick that neither starts from nor reaches
ALL_RED produces, with the request present, exactly the state it would
produce without the request, with the request merely queued — the active
mode and the committed signal state are unchanged by the request; and a
tick that starts at ALL_RED applies the queued request, so the mode
becomes the requested one. -/
theorem claim_C7_mode_switch_boundary :
    (∀ (cfg : Config) (st : EngineState) (inp : TickInput) (m : Mode),
      st.pendingMode = none → st.sub ≠ SubState.allRed →
      (tick cfg st { inp with modeReq := some m }).sub ≠
        SubState.allRed →
      (tick cfg st { inp with modeReq := some m }).sub =
        (tick cfg st { inp with modeReq := none }).sub ∧
      (tick cfg st { inp with modeReq := some m }).elapsed =
        (tick cfg st { inp with modeReq := none }).elapsed ∧
      (tick cfg st { inp with modeReq := some m }).subDur =
        (tick cfg st { inp with modeReq := none }).subDur ∧
      (tick cfg st { inp with modeReq := some m }).curPhase =
        (tick cfg st { inp with modeReq := none }).curPhase ∧
      (tick cfg st { inp with modeReq := some m }).mode =
        (tick cfg st { inp with modeReq := none }).mode ∧
      (tick cfg st { inp with modeReq := some m }).usedFallback =
        (tick cfg st { inp with modeReq := none }).usedFallback ∧
      (tick cfg st { inp with modeReq := some m }).pendingMode =
        some m) ∧
    (∀ (cfg : Config) (st : EngineState) (inp : TickInput) (m : Mode),
      st.sub = SubState.allRed →
      (tick cfg st { inp with modeReq := some m }).mode = m) := by
  constructor
  · intro cfg st inp m hpend hsub hres
    obtain ⟨tel, evs, rs, mr, mc, adv⟩ := inp
    simp only [tick] at hres ⊢
    have hres' := hres
    rw [preTick_modeReq] at hres' ⊢
    have hp0 : (preTick cfg st
        (TickInput.mk tel evs rs none mc adv)).pendingMode = none := by
      rw [preTick_pendingMode_none]; exact hpend
    have hs0 : (preTick cfg st
        (TickInput.mk tel evs rs none mc adv)).sub ≠
        SubState.allRed := by
      rw [(preTick_frame cfg st (TickInput.mk tel evs rs none mc adv)).1]
      exact hsub
    have hcong : advance cfg (TickInput.mk tel evs rs (some m) mc adv)
        { preTick cfg st (TickInput.mk tel evs rs none mc adv) with
          pendingMode := some m } =
        advance cfg (TickInput.mk tel evs rs none mc adv)
          { preTick cfg st (TickInput.mk tel evs rs none mc adv) with
            pendingMode := some m } :=
      advance_inp_congr cfg _ _ _ rfl rfl
    rw [hcong] at hres' ⊢
    exact advance_pendingUpdate cfg
      (TickInput.mk tel evs rs none mc adv) m
      (preTick cfg st (TickInput.mk tel evs rs none mc adv)) hp0 hs0 hres'
  · intro cfg st inp m hsub
    obtain ⟨tel, evs, rs, mr, mc, adv⟩ := inp
    show (advance cfg (TickInput.mk tel evs rs (some m) mc adv)
        (preTick cfg st (TickInput.mk tel evs rs (some m) mc adv))).mode =
      m
    have hsubP : (preTick cfg st
        (TickInput.mk tel evs rs (some m) mc adv)).sub =
        SubState.allRed := by
      rw [(preTick_frame cfg st
        (TickInput.mk tel evs rs (some m) mc adv)).1]
      exact hsub
    rw [advance_mode_of_allRed cfg _ _ hsubP, preTick_modeReq]
    rfl

/-- Witness for C7: at the mid-green demo state a queued switch to Fixed
mode leaves the tick result equal to the unrequested tick with the switch
queued, and from a concrete ALL_RED state the switch is applied. -/
theorem claim_C7_witness :
    ((tick demoConfig demoGreenEW
        { quietInput with modeReq := some Mode.fixed }).sub =
      (tick demoConfig demoGreenEW
        { quietInput with modeReq := none }).sub ∧
      (tick demoConfig demoGreenEW
        { quietInput with modeReq := some Mode.fixed }).mode =
        (tick demoConfig demoGreenEW
          { quietInput with modeReq := none }).mode ∧
      (tick demoConfig demoGreenEW
        { quietInput with modeReq := some Mode.fixed }).pendingMode =
        some Mode.fixed) ∧
    (tick demoConfig
        (EngineState.mk SubState.allRed 0 2 0 Mode.heuristic none none []
          [] [] false)
        { quietInput with modeReq := some Mode.manual }).mode =
      Mode.manual :=
  ⟨⟨(claim_C7_mode_switch_boundary.1 demoConfig demoGreenEW quietInput
      Mode.fixed rfl (by decide) (by decide)).1,
    (claim_C7_mode_switch_boundary.1 demoConfig demoGreenEW quietInput
      Mode.fixed rfl (by decide) (by decide)).2.2.2.2.1,
    (claim_C7_mode_switch_boundary.1 demoConfig demoGreenEW quietInput
      Mode.fixed rfl (by decide) (by decide)).2.2.2.2.2.2⟩,
   claim_C7_mode_switch_boundary.2 demoConfig
      (EngineState.mk SubState.allRed 0 2 0 Mode.heuristic none none []
        [] [] false) quietInput Mode.manual rfl⟩

/-! ### Claim C2 -/

/-- A positive clearance budget means no movement is granted. -/
theorem budget_pos_not_granting (cfg : Config) (st : EngineState)
    (h : 1 ≤ clearanceBudget cfg st) : isGranting st = false := by
  cases hs : st.sub <;>
    simp [isGranting, clearanceBudget, hs] at h ⊢

/-- The clearance budget depends only on the sub-state, its elapsed time
and its required duration. -/
theorem clearanceBudget_congr (cfg : Config) (s' s : EngineState)
    (h1 : s'.sub = s.sub) (h2 : s'.elapsed = s.elapsed)
    (h3 : s'.subDur = s.subDur) :
    clearanceBudget cfg s' = clearanceBudget cfg s := by
  unfold clearanceBudget
  rw [h1, h2, h3]

/-- One advance step from a clearance budget of at least 2 loses at most
one tick of budget (and in particular stays in clearance states). -/
theorem budget_advance (cfg : Config) (inp : TickInput)
    (s : EngineState) (h : 2 ≤ clearanceBudget cfg s) :
    clearanceBudget cfg s - 1 ≤ clearanceBudget cfg (advance cfg inp s) := by
  obtain ⟨sb, el, dur, cur, mo, pf, pend, equ, ef, qs, uf⟩ := s
  cases pend <;> cases sb <;>
    simp only [clearanceBudget] at h ⊢
  case none.green p => omega
  case some.green m' p => omega
  case none.preemptGreen served => omega
  case some.preemptGreen m' served => omega
  case none.yellow p =>
      by_cases hc1 : dur ≤ el + 1
      · by_cases hc2 : List.isEmpty equ = true
        · simp [advance, applyPendingMode, hc1, hc2, clearanceBudget]
          omega
        · simp [advance, applyPendingMode, hc1, hc2, clearanceBudget]
          omega
      · simp [advance, hc1, clearanceBudget]
        omega
  case some.yellow m' p =>
      by_cases hc1 : dur ≤ el + 1
      · by_cases hc2 : List.isEmpty equ = true
        · simp [advance, applyPendingMode, hc1, hc2, clearanceBudget]
          omega
        · simp [advance, applyPendingMode, hc1, hc2, clearanceBudget]
          omega
      · simp [advance, hc1, clearanceBudget]
        omega
  case none.allRed =>
      have hc1 : ¬(dur ≤ el + 1) := by omega
      simp [advance, applyPendingMode, hc1, clearanceBudget]
      omega
  case some.allRed m' =>
      have hc1 : ¬(dur ≤ el + 1) := by omega
      simp [advance, applyPendingMode, hc1, clearanceBudget]
      omega
  case none.preemptClear =>
      have hc1 : ¬(dur ≤ el + 1) := by omega
      simp [advance, hc1, clearanceBudget]
      omega
  case some.preemptClear m' =>
      have hc1 : ¬(dur ≤ el + 1) := by omega
      simp [advance, hc1, clearanceBudget]
      omega
  case none.preemptRecovery =>
      have hc1 : ¬(dur ≤ el + 1) := by omega
      simp [advance, hc1, clearanceBudget]
      omega
  case some.preemptRecovery m' =>
      have hc1 : ¬(dur ≤ el + 1) := by omega
      simp [advance, hc1, clearanceBudget]
      omega

/-- One full tick from a clearance budget of at least 2 loses at most one
tick of budget. -/
theorem budget_tick (cfg : Config) (st : EngineState) (inp : TickInput)
    (h : 2 ≤ clearanceBudget cfg st) :
    clearanceBudget cfg st - 1 ≤ clearanceBudget cfg (tick cfg st inp) := by
  have hng : isGreenSub st.sub = false := by
    cases hs : st.sub <;> simp [isGreenSub, clearanceBudget, hs] at h ⊢
  obtain ⟨f1, f2, _, _, _, _, f7⟩ := preTick_frame cfg st inp
  have hpb : clearanceBudget cfg (preTick cfg st inp) =
      clearanceBudget cfg st :=
    clearanceBudget_congr cfg _ _ f1 f2 (f7 hng)
  have := budget_advance cfg inp (preTick cfg st inp) (by omega)
  unfold tick
  omega

/-- While the clearance budget outlasts the run, no movement is granted,
whatever inputs arrive. -/
theorem budget_run (cfg : Config) :
    ∀ (L : List TickInput) (st : EngineState),
      L.length < clearanceBudget cfg st →
      isGranting (run cfg st L) = false := by
  intro L
  induction L with
  | nil =>
      intro st h
      exact budget_pos_not_granting cfg st (by simpa using h)
  | cons i t ih =>
      intro st h
      have hlen : t.length + 1 < clearanceBudget cfg st := by
        simpa using h
      have hb := budget_tick cfg st i (by omega)
      have hrun : run cfg st (i :: t) = run cfg (tick cfg st i) t := rfl
      rw [hrun]
      exact ih (tick cfg st i) (by omega)

/-- Leaving GREEN always enters YELLOW of the same phase with a fresh
counter and the configured yellow duration. -/
theorem advance_green_exit (cfg : Config) (inp : TickInput)
    (s : EngineState) (p : PhaseId) (hsub : s.sub = SubState.green p) :
    (advance cfg inp s).sub = SubState.green p ∨
    ((advance cfg inp s).sub = SubState.yellow p ∧
      (advance cfg inp s).elapsed = 0 ∧
      (advance cfg inp s).subDur = yellowOf cfg p) := by
  obtain ⟨sb, el, dur, cur, mo, pf, pend, equ, ef, qs, uf⟩ := s
  simp only at hsub
  subst hsub
  simp only [advance]
  split <;> split <;>
    first
      | exact Or.inl rfl
      | exact Or.inr ⟨rfl, rfl, rfl⟩

/-- Leaving PREEMPT_GREEN always enters PREEMPT_RECOVERY. -/
theorem advance_preempt_exit (cfg : Config) (inp : TickInput)
    (s : EngineState) (served : List ApproachId)
    (hsub : s.sub = SubState.preemptGreen served) :
    (advance cfg inp s).sub = SubState.preemptGreen served ∨
    (advance cfg inp s).sub = SubState.preemptRecovery := by
  obtain ⟨sb, el, dur, cur, mo, pf, pend, equ, ef, qs, uf⟩ := s
  simp only at hsub
  subst hsub
  simp only [advance]
  split
  · exact Or.inr rfl
  · exact Or.inl rfl

/-- A fresh GREEN is entered only from the same green, from ALL_RED or
from PREEMPT_RECOVERY. -/
theorem advance_green_entry (cfg : Config) (inp : TickInput)
    (s : EngineState) (q : PhaseId)
    (h : (advance cfg inp s).sub = SubState.green q) :
    s.sub = SubState.green q ∨ s.sub = SubState.allRed ∨
      s.sub = SubState.preemptRecovery := by
  obtain ⟨sb, el, dur, cur, mo, pf, pend, equ, ef, qs, uf⟩ := s
  cases pend <;> cases sb <;>
    first
      | exact Or.inr (Or.inl rfl)
      | exact Or.inr (Or.inr rfl)
      | (simp only [advance, applyPendingMode] at h
         split at h <;> try split at h
         all_goals first | exact Or.inl h | exact absurd h (by simp))

/-- YELLOW flows only into ALL_RED or PREEMPT_CLEAR (or stays yellow). -/
theorem advance_yellow_exit (cfg : Config) (inp : TickInput)
    (s : EngineState) (p : PhaseId) (hsub : s.sub = SubState.yellow p) :
    (advance cfg inp s).sub = SubState.yellow p ∨
    (advance cfg inp s).sub = SubState.allRed ∨
    (advance cfg inp s).sub = SubState.preemptClear := by
  obtain ⟨sb, el, dur, cur, mo, pf, pend, equ, ef, qs, uf⟩ := s
  simp only at hsub
  subst hsub
  cases pend <;> simp only [advance, applyPendingMode] <;>
    (split <;> try split) <;>
    first
      | exact Or.inl rfl
      | exact Or.inr (Or.inl rfl)
      | exact Or.inr (Or.inr rfl)

/-- C2: every transition out of GREEN passes through YELLOW of the same
phase, which flows only into ALL_RED or PREEMPT_CLEAR; leaving
PREEMPT_GREEN always enters PREEMPT_RECOVERY (never GREEN directly, also
on emergency resolution); a fresh GREEN is entered only from ALL_RED or
PREEMPT_RECOVERY; and after a tick leaves GREEN(p), no movement at all is
granted during the next yellow-plus-all-red ticks of phase p, whatever
inputs (ticks, decisions, mode switches, emergencies) arrive — the
clearance is never skipped, truncated or reordered and lasts at least the
configured minimum for the vacated phase. -/
theorem claim_C2_clearance :
    (∀ (cfg : Config) (st : EngineState) (inp : TickInput) (p : PhaseId),
      st.sub = SubState.green p →
      (tick cfg st inp).sub = SubState.green p ∨
      ((tick cfg st inp).sub = SubState.yellow p ∧
        (tick cfg st inp).elapsed = 0 ∧
        (tick cfg st inp).subDur = yellowOf cfg p)) ∧
    (∀ (cfg : Config) (st : EngineState) (inp : TickInput)
      (served : List ApproachId),
      st.sub = SubState.preemptGreen served →
      (tick cfg st inp).sub = SubState.preemptGreen served ∨
      (tick cfg st inp).sub = SubState.preemptRecovery) ∧
    (∀ (cfg : Config) (st : EngineState) (inp : TickInput) (q : PhaseId),
      (tick cfg st inp).sub = SubState.green q →
      st.sub = SubState.green q ∨ st.sub = SubState.allRed ∨
        st.sub = SubState.preemptRecovery) ∧
    (∀ (cfg : Config) (st : EngineState) (inp : TickInput) (p : PhaseId),
      st.sub = SubState.yellow p →
      (tick cfg st inp).sub = SubState.yellow p ∨
      (tick cfg st inp).sub = SubState.allRed ∨
      (tick cfg st inp).sub = SubState.preemptClear) ∧
    (∀ (cfg : Config) (st : EngineState) (inp : TickInput)
      (L : List TickInput) (p : PhaseId),
      st.sub = SubState.green p →
      (tick cfg st inp).sub ≠ SubState.green p →
      L.length < yellowOf cfg p + allRedOf cfg p →
      isGranting (run cfg (tick cfg st inp) L) = false) := by
  refine ⟨?_, ?_, ?_, ?_, ?_⟩
  · intro cfg st inp p hsub
    have h' : (preTick cfg st inp).sub = SubState.green p := by
      rw [(preTick_frame cfg st inp).1]; exact hsub
    exact advance_green_exit cfg inp (preTick cfg st inp) p h'
  · intro cfg st inp served hsub
    have h' : (preTick cfg st inp).sub = SubState.preemptGreen served := by
      rw [(preTick_frame cfg st inp).1]; exact hsub
    exact advance_preempt_exit cfg inp (preTick cfg st inp) served h'
  · intro cfg st inp q h
    have h' := advance_green_entry cfg inp (preTick cfg st inp) q h
    rw [(preTick_frame cfg st inp).1] at h'
    exact h'
  · intro cfg st inp p hsub
    have h' : (preTick cfg st inp).sub = SubState.yellow p := by
      rw [(preTick_frame cfg st inp).1]; exact hsub
    exact advance_yellow_exit cfg inp (preTick cfg st inp) p h'
  · intro cfg st inp L p hsub hexit hlen
    have h' : (preTick cfg st inp).sub = SubState.green p := by
      rw [(preTick_frame cfg st inp).1]; exact hsub
    rcases advance_green_exit cfg inp (preTick cfg st inp) p h' with
      hg | ⟨hy, he, hd⟩
    · exact absurd hg hexit
    · apply budget_run cfg L (tick cfg st inp)
      have hb : clearanceBudget cfg (tick cfg st inp) =
          yellowOf cfg p + allRedOf cfg p := by
        unfold tick clearanceBudget
        rw [hy, he, hd]
        simp
      omega

/-- Witness for C2: a green EW state one tick from its committed end
leaves green, and for the next 4 ticks (less than yellow 3 + all-red 2)
no movement is granted even with an emergency and a mode switch
arriving. -/
theorem claim_C2_witness :
    isGranting (run demoConfig
      (tick demoConfig
        (EngineState.mk (SubState.green 1) 34 35 1 Mode.heuristic none
          none [] [] [] false) quietInput)
      [TickInput.mk [] [(4, 95)] [] (some Mode.fixed) none none,
       quietInput, quietInput, quietInput]) = false := by
  have h := claim_C2_clearance.2.2.2.2 demoConfig
    (EngineState.mk (SubState.green 1) 34 35 1 Mode.heuristic none none
      [] [] [] false) quietInput
    [TickInput.mk [] [(4, 95)] [] (some Mode.fixed) none none,
     quietInput, quietInput, quietInput] 1 rfl (by decide) (by decide)
  exact h

/-! ### Claim C1 -/

/-- The moving-approach set depends only on the sub-state. -/
theorem movingApproaches_congr (cfg : Config) (s' s : EngineState)
    (h : s'.sub = s.sub) :
    movingApproaches cfg s' = movingApproaches cfg s := by
  unfold movingApproaches
  rw [h]

/-- The greedy queue merge only ever serves a conflict-free set. -/
theorem serveQueue_conflictFree (t : Topology) :
    ∀ (q served : List ApproachId), conflictFree t served = true →
      conflictFree t (serveQueue t served q).1 = true := by
  intro q
  induction q with
  | nil => intro served h; exact h
  | cons c cs ih =>
      intro served h
      unfold serveQueue
      split
      · rename_i hc
        exact ih (c :: served) (by simp [conflictFree, hc, h])
      · exact ih served h

/-- The successor of `cur` in a non-empty cycle is a cycle member. -/
theorem nextInCycle_mem (cycle : List PhaseId) (cur : PhaseId)
    (h : cycle ≠ []) : nextInCycle cycle cur ∈ cycle := by
  unfold nextInCycle
  rcases hdw : cycle.dropWhile (fun p => !(p == cur)) with _ | ⟨a, tl⟩
  · cases cycle with
    | nil => exact absurd rfl h
    | cons x xs => exact List.mem_cons_self x xs
  · cases tl with
    | nil =>
        cases cycle with
        | nil => exact absurd rfl h
        | cons x xs => exact List.mem_cons_self x xs
    | cons b rest =>
        have hsub := List.dropWhile_sublist
          (l := cycle) (fun p => !(p == cur))
        rw [hdw] at hsub
        exact hsub.subset (List.mem_cons_of_mem a (List.mem_cons_self b rest))

/-- In a valid configuration the clamped decision always names a
configured phase. -/
theorem clampDecision_found (cfg : Config) (hv : validConfig cfg)
    (cur : PhaseId) (d : Decision) :
    ∃ ph, findPhase cfg (clampDecision cfg cur d).phaseId = some ph ∧
      ph ∈ cfg.phases := by
  unfold clampDecision
  cases hf : findPhase cfg d.phaseId with
  | some ph =>
      exact ⟨ph, by simp [hf], List.mem_of_find?_eq_some hf⟩
  | none =>
      have hmem : nextInCycle cfg.cycle cur ∈ cfg.cycle :=
        nextInCycle_mem cfg.cycle cur hv.2.1
      have hsome := hv.2.2 (nextInCycle cfg.cycle cur) hmem
      rcases hfb : findPhase cfg (nextInCycle cfg.cycle cur) with _ | ph
      · rw [hfb] at hsome
        exact absurd hsome (by simp)
      · refine ⟨ph, ?_, List.mem_of_find?_eq_some hfb⟩
        simp only [fixedTimerDecide] at hfb ⊢
        simp [hfb]

/-- Entering a fresh green commits a conflict-free approach set. -/
theorem enterGreen_moving (cfg : Config) (inp : TickInput)
    (s : EngineState) (hv : validConfig cfg) :
    conflictFree cfg.topo
      (movingApproaches cfg (enterGreen cfg inp s)) = true := by
  obtain ⟨ph, hfp, hmem⟩ := clampDecision_found cfg hv s.curPhase
    (strategyDecide cfg s.mode s.queues s.curPhase inp).1
  unfold movingApproaches enterGreen
  simp only
  rw [hfp]
  exact (hv.1 ph hmem).1

/-- One state-machine advance preserves the conflict-free moving set. -/
theorem inv_advance (cfg : Config) (inp : TickInput) (s : EngineState)
    (hv : validConfig cfg)
    (h : conflictFree cfg.topo (movingApproaches cfg s) = true) :
    conflictFree cfg.topo (movingApproaches cfg (advance cfg inp s)) =
      true := by
  obtain ⟨sb, el, dur, cur, mo, pf, pend, equ, ef, qs, uf⟩ := s
  cases pend <;> cases sb <;> simp only [advance, applyPendingMode]
  case none.green p =>
      split <;> split <;> first | rfl | exact h
  case some.green m' p =>
      split <;> split <;> first | rfl | exact h
  case none.yellow p => split <;> try split
                        all_goals rfl
  case some.yellow m' p => split <;> try split
                           all_goals rfl
  case none.allRed =>
      split
      · split
        · exact enterGreen_moving cfg inp _ hv
        · rfl
      · rfl
  case some.allRed m' =>
      split
      · split
        · exact enterGreen_moving cfg inp _ hv
        · rfl
      · rfl
  case none.preemptClear =>
      split
      · split
        · rfl
        · exact serveQueue_conflictFree cfg.topo equ [] rfl
      · rfl
  case some.preemptClear m' =>
      split
      · split
        · rfl
        · exact serveQueue_conflictFree cfg.topo equ [] rfl
      · rfl
  case none.preemptGreen served =>
      split
      · rfl
      · exact h
  case some.preemptGreen m' served =>
      split
      · rfl
      · exact h
  case none.preemptRecovery =>
      split
      · split
        · cases pf <;> exact enterGreen_moving cfg inp _ hv
        · rfl
      · rfl
  case some.preemptRecovery m' =>
      split
      · split
        · cases pf <;> exact enterGreen_moving cfg inp _ hv
        · rfl
      · rfl

/-- One full tick preserves the conflict-free moving set. -/
theorem inv_tick (cfg : Config) (st : EngineState) (inp : TickInput)
    (hv : validConfig cfg)
    (h : conflictFree cfg.topo (movingApproaches cfg st) = true) :
    conflictFree cfg.topo (movingApproaches cfg (tick cfg st inp)) =
      true := by
  have hP : conflictFree cfg.topo
      (movingApproaches cfg (preTick cfg st inp)) = true := by
    rw [movingApproaches_congr cfg _ _ (preTick_frame cfg st inp).1]
    exact h
  exact inv_advance cfg inp (preTick cfg st inp) hv hP

/-- C1: from the initial state, under every sequence of tick inputs
(telemetry, strategy decisions, mode switches, emergency events and
resolutions), at most one phase is granted movement at any instant — the
single sub-state grants movement to at most one phase or preemption set —
and the set of approaches currently granted movement never contains a
conflicting pair. -/
theorem claim_C1_safety :
    ∀ (cfg : Config) (L : List TickInput), validConfig cfg →
      grantingCount (run cfg (initState cfg) L) ≤ 1 ∧
      conflictFree cfg.topo
        (movingApproaches cfg (run cfg (initState cfg) L)) = true := by
  intro cfg L hv
  constructor
  · cases hs : (run cfg (initState cfg) L).sub <;>
      simp [grantingCount, hs]
  · have hrun : ∀ (M : List TickInput) (s : EngineState),
        conflictFree cfg.topo (movingApproaches cfg s) = true →
        conflictFree cfg.topo (movingApproaches cfg (run cfg s M)) =
          true := by
      intro M
      induction M with
      | nil => intro s hs; exact hs
      | cons i t ih =>
          intro s hs
          exact ih (tick cfg s i) (inv_tick cfg s i hv hs)
    exact hrun L (initState cfg) rfl

/-- Witness for C1: a run of the five-approach demo that passes through a
green, an emergency on the NE approach during a conflicting green, a mode
switch, preemption and recovery keeps the moving set conflict free. -/
theorem claim_C1_witness :
    grantingCount (run demoConfig (initState demoConfig)
      (TickInput.mk [(0, 7), (2, 12)] [] [] none none none ::
        quietInput :: quietInput ::
        TickInput.mk [] [(4, 95)] [] (some Mode.adaptive) none none ::
        List.replicate 12 quietInput)) ≤ 1 ∧
    conflictFree demoConfig.topo
      (movingApproaches demoConfig (run demoConfig (initState demoConfig)
        (TickInput.mk [(0, 7), (2, 12)] [] [] none none none ::
          quietInput :: quietInput ::
          TickInput.mk [] [(4, 95)] [] (some Mode.adaptive) none none ::
          List.replicate 12 quietInput))) = true :=
  claim_C1_safety demoConfig
    (TickInput.mk [(0, 7), (2, 12)] [] [] none none none ::
      quietInput :: quietInput ::
      TickInput.mk [] [(4, 95)] [] (some Mode.adaptive) none none ::
      List.replicate 12 quietInput) (by decide)

/-! ### Claim C3 -/

/-- Splitting a quiet run at the front. -/
theorem runQuiet_succ_front (cfg : Config) :
    ∀ (n : Nat) (s : EngineState),
      runQuiet cfg s (n + 1) =
        runQuiet cfg (tick cfg s quietInput) n := by
  intro n
  induction n with
  | zero => intro s; rfl
  | succ k ih =>
      intro s
      have h1 : runQuiet cfg s (k + 1 + 1) =
          tick cfg (runQuiet cfg s (k + 1)) quietInput := rfl
      rw [h1, ih s]
      rfl

/-- Splitting a quiet run anywhere. -/
theorem runQuiet_add (cfg : Config) (s : EngineState) :
    ∀ (m n : Nat),
      runQuiet cfg s (m + n) = runQuiet cfg (runQuiet cfg s m) n := by
  intro m n
  induction n with
  | zero => rfl
  | succ k ih =>
      have h1 : runQuiet cfg s (m + (k + 1)) =
          tick cfg (runQuiet cfg s (m + k)) quietInput := rfl
      rw [h1, ih]
      rfl

/-- A quiet tick inside a mandatory interval only advances the counter. -/
theorem tick_quiet_stay (cfg : Config) (s : EngineState)
    (hm : mandatorySub s.sub = true) (hpend : s.pendingMode = none)
    (hlt : s.elapsed + 1 < s.subDur) :
    tick cfg s quietInput = { s with elapsed := s.elapsed + 1 } := by
  rw [tick_quiet]
  obtain ⟨sb, el, dur, cur, mo, pf, pend, equ, ef, qs, uf⟩ := s
  simp only at hm hpend hlt
  subst hpend
  have hc : ¬(dur ≤ el + 1) := by omega
  cases sb <;> simp [mandatorySub] at hm <;>
    simp [advance, applyPendingMode, hc]

/-- A quiet run inside a mandatory interval only advances the counter. -/
theorem runQuiet_stay (cfg : Config) :
    ∀ (n : Nat) (s : EngineState), mandatorySub s.sub = true →
      s.pendingMode = none → s.elapsed + n < s.subDur →
      runQuiet cfg s n = { s with elapsed := s.elapsed + n } := by
  intro n
  induction n with
  | zero => intro s _ _ _; rfl
  | succ k ih =>
      intro s hm hpend hlt
      have h1 : runQuiet cfg s (k + 1) =
          tick cfg (runQuiet cfg s k) quietInput := rfl
      rw [h1, ih s hm hpend (by omega)]
      exact tick_quiet_stay cfg { s with elapsed := s.elapsed + k } hm
        hpend (by simpa using by omega)

/-- A quiet tick ends a green with a pending conflicting emergency as
soon as the clamped duration is reached: into YELLOW of the same phase. -/
theorem tick_quiet_green_exit (cfg : Config) (s : EngineState)
    (p : PhaseId) (ph : Phase) (hsub : s.sub = SubState.green p)
    (hfp : findPhase cfg p = some ph)
    (hq : s.emergQueue.isEmpty = false)
    (hdone : min s.subDur (max ph.minGreen s.elapsed) ≤ s.elapsed + 1) :
    tick cfg s quietInput =
      { s with sub := SubState.yellow p, elapsed := 0,
               subDur := ph.yellowDur, curPhase := p } := by
  rw [tick_quiet]
  obtain ⟨sb, el, dur, cur, mo, pf, pend, equ, ef, qs, uf⟩ := s
  simp only at hsub hq hdone
  subst hsub
  simp [advance, hq, hfp, hdone, yellowOf]

/-- A quiet tick keeps a green with a pending conflicting emergency
strictly before the clamped duration. -/
theorem tick_quiet_green_stay (cfg : Config) (s : EngineState)
    (p : PhaseId) (ph : Phase) (hsub : s.sub = SubState.green p)
    (hfp : findPhase cfg p = some ph)
    (hq : s.emergQueue.isEmpty = false)
    (hstay : s.elapsed + 1 < min s.subDur (max ph.minGreen s.elapsed)) :
    tick cfg s quietInput = { s with elapsed := s.elapsed + 1 } := by
  rw [tick_quiet]
  obtain ⟨sb, el, dur, cur, mo, pf, pend, equ, ef, qs, uf⟩ := s
  simp only at hsub hq hstay
  subst hsub
  have hc : ¬(min dur (max ph.minGreen el) ≤ el + 1) := by omega
  simp [advance, hq, hfp, hc]

/-- A quiet tick ends a yellow with a pending emergency into
PREEMPT_CLEAR, recording the preempted-from phase and mode. -/
theorem tick_quiet_yellow_exit (cfg : Config) (s : EngineState)
    (p : PhaseId) (hsub : s.sub = SubState.yellow p)
    (hq : s.emergQueue.isEmpty = false)
    (hdone : s.subDur ≤ s.elapsed + 1) :
    tick cfg s quietInput =
      { s with sub := SubState.preemptClear, elapsed := 0,
               subDur := allRedOf cfg p,
               preemptedFrom := some (s.curPhase, s.mode) } := by
  rw [tick_quiet]
  obtain ⟨sb, el, dur, cur, mo, pf, pend, equ, ef, qs, uf⟩ := s
  simp only at hsub hq hdone
  subst hsub
  simp [advance, hq, hdone]

/-- A quiet tick ends the preemption clearance into PREEMPT_GREEN of the
single queued approach. -/
theorem tick_quiet_clear_exit (cfg : Config) (s : EngineState)
    (a : ApproachId) (hsub : s.sub = SubState.preemptClear)
    (hq : s.emergQueue = [a]) (hdone : s.subDur ≤ s.elapsed + 1) :
    tick cfg s quietInput =
      { s with sub := SubState.preemptGreen [a], elapsed := 0,
               subDur := cfg.preemptWindow, emergQueue := [] } := by
  rw [tick_quiet]
  obtain ⟨sb, el, dur, cur, mo, pf, pend, equ, ef, qs, uf⟩ := s
  simp only at hsub hq hdone
  subst hsub
  subst hq
  simp [advance, hdone, serveQueue, noConflictWith]

/-- Quiet run of a green with a pending conflicting emergency: the green
persists for exactly the clamped remainder (`max minGreen (elapsed+1) -
elapsed` ticks, counting the tick that processed the event) and then
enters YELLOW of the same phase. `k` counts the strictly-staying ticks. -/
theorem greenPreemptRun (cfg : Config) (p : PhaseId) (ph : Phase)
    (hfp : findPhase cfg p = some ph) :
    ∀ (k : Nat) (s : EngineState), s.sub = SubState.green p →
      s.emergQueue.isEmpty = false →
      ph.minGreen ≤ s.subDur →
      s.elapsed + k + 1 = max ph.minGreen (s.elapsed + 1) →
      (∀ j, j ≤ k →
        runQuiet cfg s j = { s with elapsed := s.elapsed + j }) ∧
      runQuiet cfg s (k + 1) =
        { s with sub := SubState.yellow p, elapsed := 0,
                 subDur := ph.yellowDur, curPhase := p } := by
  intro k
  induction k with
  | zero =>
      intro s hsub hq hmin hcnt
      constructor
      · intro j hj
        have hj0 : j = 0 := Nat.le_zero.mp hj
        subst hj0
        rfl
      · have h1 : runQuiet cfg s (0 + 1) =
            tick cfg (runQuiet cfg s 0) quietInput := rfl
        rw [h1]
        exact tick_quiet_green_exit cfg s p ph hsub hfp hq (by omega)
  | succ k ih =>
      intro s hsub hq hmin hcnt
      have hstay : s.elapsed + 1 <
          min s.subDur (max ph.minGreen s.elapsed) := by omega
      have hs1 : tick cfg s quietInput = { s with elapsed := s.elapsed + 1 } :=
        tick_quiet_green_stay cfg s p ph hsub hfp hq hstay
      obtain ⟨ihA, ihB⟩ := ih { s with elapsed := s.elapsed + 1 } hsub hq
        hmin (by simp; omega)
      constructor
      · intro j hj
        cases j with
        | zero => rfl
        | succ j' =>
            have h1 : runQuiet cfg s (j' + 1) =
                runQuiet cfg (tick cfg s quietInput) j' :=
              runQuiet_succ_front cfg j' s
            rw [h1, hs1, ihA j' (by omega)]
            simp
            all_goals omega
      · have h1 : runQuiet cfg s (k + 1 + 1) =
            runQuiet cfg (tick cfg s quietInput) (k + 1) :=
          runQuiet_succ_front cfg (k + 1) s
        rw [h1, hs1, ihB]

/-- Quiet run from the yellow entered under a pending emergency: the
yellow runs its full duration `y+1`, PREEMPT_CLEAR runs the full all-red
clearance `r+1`, and PREEMPT_GREEN of the queued approach is entered
exactly then — never earlier. -/
theorem yellowToPreemptGreen (cfg : Config) (p : PhaseId)
    (a : ApproachId) (y r : Nat) (s : EngineState)
    (hsub : s.sub = SubState.yellow p) (hel : s.elapsed = 0)
    (hq : s.emergQueue = [a]) (hpend : s.pendingMode = none)
    (hdur : s.subDur = y + 1) (har : allRedOf cfg p = r + 1) :
    (∀ j, j ≤ y → runQuiet cfg s j = { s with elapsed := j }) ∧
    (∀ j, j ≤ r → runQuiet cfg s (y + 1 + j) =
      { s with sub := SubState.preemptClear, elapsed := j,
               subDur := allRedOf cfg p,
               preemptedFrom := some (s.curPhase, s.mode) }) ∧
    runQuiet cfg s (y + 1 + (r + 1)) =
      { s with sub := SubState.preemptGreen [a], elapsed := 0,
               subDur := cfg.preemptWindow, emergQueue := [],
               preemptedFrom := some (s.curPhase, s.mode) } := by
  have hm : mandatorySub s.sub = true := by rw [hsub]; rfl
  have hA : ∀ j, j ≤ y →
      runQuiet cfg s j = { s with elapsed := j } := by
    intro j hj
    have := runQuiet_stay cfg j s hm hpend (by omega)
    rw [this, hel]
    all_goals simp
  have hB : runQuiet cfg s (y + 1) =
      { s with sub := SubState.preemptClear, elapsed := 0,
               subDur := allRedOf cfg p,
               preemptedFrom := some (s.curPhase, s.mode) } := by
    have h1 : runQuiet cfg s (y + 1) =
        tick cfg (runQuiet cfg s y) quietInput := rfl
    rw [h1, hA y (Nat.le_refl y)]
    exact tick_quiet_yellow_exit cfg { s with elapsed := y } p hsub
      (by simp [hq]) (by simp [hdur])
  refine ⟨hA, ?_, ?_⟩
  · intro j hj
    have h1 : runQuiet cfg s (y + 1 + j) =
        runQuiet cfg (runQuiet cfg s (y + 1)) j :=
      runQuiet_add cfg s (y + 1) j
    rw [h1, hB]
    have := runQuiet_stay cfg j
      { s with sub := SubState.preemptClear, elapsed := 0,
               subDur := allRedOf cfg p,
               preemptedFrom := some (s.curPhase, s.mode) }
      rfl hpend (by simp only [har]; omega)
    rw [this]
    all_goals simp
  · have h1 : runQuiet cfg s (y + 1 + (r + 1)) =
        runQuiet cfg (runQuiet cfg s (y + 1)) (r + 1) :=
      runQuiet_add cfg s (y + 1) (r + 1)
    have h2 : runQuiet cfg (runQuiet cfg s (y + 1)) (r + 1) =
        tick cfg (runQuiet cfg (runQuiet cfg s (y + 1)) r)
          quietInput := rfl
    rw [h1, h2, hB]
    have h3 := runQuiet_stay cfg r
      { s with sub := SubState.preemptClear, elapsed := 0,
               subDur := allRedOf cfg p,
               preemptedFrom := some (s.curPhase, s.mode) }
      rfl hpend (by simp only [har]; omega)
    rw [h3]
    exact tick_quiet_clear_exit cfg _ a rfl (by simp [hq])
      (by simp [har])

/-- Draining a single emergency record for an approach not served by the
current green flags and queues that approach, and nothing else. -/
theorem preTick_event (cfg : Config) (st : EngineState)
    (a conf : Nat) (p : PhaseId) (ph : Phase)
    (hsub : st.sub = SubState.green p) (hfp : findPhase cfg p = some ph)
    (hconf : cfg.emergConfThreshold ≤ conf)
    (hnotin : ph.approaches.contains a = false) :
    preTick cfg st (TickInput.mk [] [(a, conf)] [] none none none) =
      { st with emergFlags := insertNew st.emergFlags a,
                emergQueue := insertNew st.emergQueue a } := by
  show processEmergency cfg st (a, conf) = _
  unfold processEmergency
  have hc2 : servesApproach cfg st a = false := by
    unfold servesApproach
    rw [hsub]
    simp only [hfp]
    exact hnotin
  rw [if_neg (by simp; omega), if_neg (by simp [hc2])]

/-- A tick whose input carries no operator command and no advisory acts
like draining its buffers and then performing a quiet tick. -/
theorem tick_as_quiet (cfg : Config) (st : EngineState) (i : TickInput)
    (h1 : i.manualCmd = none) (h2 : i.advisory = none) :
    tick cfg st i = tick cfg (preTick cfg st i) quietInput := by
  rw [tick_quiet]
  exact advance_inp_congr cfg (preTick cfg st i) i quietInput h1 h2

/-- Any state-machine advance inside a mandatory interval only advances
the counter of that interval, whatever the inputs. -/
theorem advance_mandatory_stay (cfg : Config) (inp : TickInput)
    (s : EngineState) (hm : mandatorySub s.sub = true)
    (hlt : s.elapsed + 1 < s.subDur) :
    (advance cfg inp s).sub = s.sub ∧
    (advance cfg inp s).elapsed = s.elapsed + 1 ∧
    (advance cfg inp s).subDur = s.subDur := by
  obtain ⟨sb, el, dur, cur, mo, pf, pend, equ, ef, qs, uf⟩ := s
  simp only at hm hlt
  cases pend <;> cases sb
  all_goals simp [mandatorySub] at hm
  all_goals
    (have hc : ¬(dur ≤ el + 1) := by omega
     simp [advance, applyPendingMode, hc])

/-- C3: an emergency event in progress never shortens a mandatory
clearance interval (yellow, all-red, preemption clearance or recovery
simply advance by one tick, whatever inputs arrive); and for an
emergency event of sufficient confidence on an approach `a` conflicting
with (and not served by) the phase currently green, PREEMPT_GREEN(a) is
entered exactly (remaining green clamped to the phase minimum) + yellow
+ all-red ticks after the event tick — within the bound, and never
earlier. -/
theorem claim_C3_preemption_latency :
    (∀ (cfg : Config) (st : EngineState) (inp : TickInput),
      mandatorySub st.sub = true → st.elapsed + 1 < st.subDur →
      (tick cfg st inp).sub = st.sub ∧
      (tick cfg st inp).elapsed = st.elapsed + 1 ∧
      (tick cfg st inp).subDur = st.subDur) ∧
    (∀ (cfg : Config) (st : EngineState) (p : PhaseId) (ph : Phase)
      (a conf : Nat),
      validConfig cfg →
      st.sub = SubState.green p → findPhase cfg p = some ph →
      ph.minGreen ≤ st.subDur → st.emergQueue = [] →
      st.pendingMode = none →
      cfg.emergConfThreshold ≤ conf →
      ph.approaches.contains a = false →
      (∃ b ∈ ph.approaches, conflicts cfg.topo a b = true) →
      (∀ m, m + 1 < (max ph.minGreen (st.elapsed + 1) - st.elapsed) +
          ph.yellowDur + ph.allRedDur →
        isPreemptGreenSub ((runQuiet cfg
          (tick cfg st (TickInput.mk [] [(a, conf)] [] none none none))
          m).sub) = false) ∧
      (runQuiet cfg
        (tick cfg st (TickInput.mk [] [(a, conf)] [] none none none))
        ((max ph.minGreen (st.elapsed + 1) - st.elapsed) +
          ph.yellowDur + ph.allRedDur - 1)).sub =
        SubState.preemptGreen [a]) := by
  constructor
  · intro cfg st inp hm hlt
    obtain ⟨f1, f2, _, _, _, _, f7⟩ := preTick_frame cfg st inp
    have hng : isGreenSub st.sub = false := by
      cases hsb : st.sub <;> simp [mandatorySub, isGreenSub, hsb] at hm ⊢
    have hm' : mandatorySub (preTick cfg st inp).sub = true := by
      rw [f1]; exact hm
    have hlt' : (preTick cfg st inp).elapsed + 1 <
        (preTick cfg st inp).subDur := by
      rw [f2, f7 hng]; exact hlt
    obtain ⟨a1, a2, a3⟩ := advance_mandatory_stay cfg inp
      (preTick cfg st inp) hm' hlt'
    exact ⟨by rw [show (tick cfg st inp).sub =
        (advance cfg inp (preTick cfg st inp)).sub from rfl, a1, f1],
      by rw [show (tick cfg st inp).elapsed =
        (advance cfg inp (preTick cfg st inp)).elapsed from rfl, a2, f2],
      by rw [show (tick cfg st inp).subDur =
        (advance cfg inp (preTick cfg st inp)).subDur from rfl, a3,
        f7 hng]⟩
  · intro cfg st p ph a conf hv hsub hfp hmin hq hpend hconf hnotin _
    have hmem : ph ∈ cfg.phases := List.mem_of_find?_eq_some hfp
    obtain ⟨_, _, _, hydur, hardur⟩ := hv.1 ph hmem
    obtain ⟨y, hy⟩ : ∃ y, ph.yellowDur = y + 1 :=
      ⟨ph.yellowDur - 1, by omega⟩
    obtain ⟨r, hr⟩ : ∃ r, ph.allRedDur = r + 1 :=
      ⟨ph.allRedDur - 1, by omega⟩
    have haOf : allRedOf cfg p = r + 1 := by simp [allRedOf, hfp, hr]
    have hpe := preTick_event cfg st a conf p ph hsub hfp hconf hnotin
    rw [hq] at hpe
    have hpe' : preTick cfg st
        (TickInput.mk [] [(a, conf)] [] none none none) =
        { st with emergFlags := insertNew st.emergFlags a,
                  emergQueue := [a] } := by
      rw [hpe]
      simp [insertNew]
    have htick := tick_as_quiet cfg st
      (TickInput.mk [] [(a, conf)] [] none none none) rfl rfl
    rw [hpe'] at htick
    have htrace : ∀ m, runQuiet cfg
        (tick cfg st (TickInput.mk [] [(a, conf)] [] none none none)) m =
        runQuiet cfg
          { st with emergFlags := insertNew st.emergFlags a,
                    emergQueue := [a] } (m + 1) := by
      intro m
      rw [htick, ← runQuiet_succ_front]
    have hmax : st.elapsed + 1 ≤ max ph.minGreen (st.elapsed + 1) :=
      Nat.le_max_right _ _
    obtain ⟨k, hk⟩ : ∃ k, st.elapsed + k + 1 =
        max ph.minGreen (st.elapsed + 1) :=
      ⟨max ph.minGreen (st.elapsed + 1) - st.elapsed - 1, by omega⟩
    obtain ⟨gA, gB⟩ := greenPreemptRun cfg p ph hfp k
      { st with emergFlags := insertNew st.emergFlags a,
                emergQueue := [a] }
      hsub rfl hmin (by simpa using hk)
    obtain ⟨yA, yC, yD⟩ := yellowToPreemptGreen cfg p a y r
      { st with emergFlags := insertNew st.emergFlags a,
                emergQueue := [a], sub := SubState.yellow p,
                elapsed := 0, subDur := ph.yellowDur, curPhase := p }
      rfl rfl rfl hpend (by simpa using hy) haOf
    have hcomp : ∀ n, runQuiet cfg
        { st with emergFlags := insertNew st.emergFlags a,
                  emergQueue := [a] } (k + 1 + n) =
        runQuiet cfg
          { st with emergFlags := insertNew st.emergFlags a,
                    emergQueue := [a], sub := SubState.yellow p,
                    elapsed := 0, subDur := ph.yellowDur,
                    curPhase := p } n := by
      intro n
      rw [runQuiet_add, gB]
    have hT : (max ph.minGreen (st.elapsed + 1) - st.elapsed) +
        ph.yellowDur + ph.allRedDur =
        (k + 1) + ((y + 1) + (r + 1)) := by omega
    constructor
    · intro m hmlt
      rw [htrace m]
      rw [hT] at hmlt
      by_cases h1 : m + 1 ≤ k
      · rw [gA (m + 1) h1]
        show isPreemptGreenSub st.sub = false
        rw [hsub]
        rfl
      · by_cases h2 : m + 1 ≤ k + 1 + y
        · have hn : m + 1 = k + 1 + (m + 1 - (k + 1)) := by omega
          rw [hn, hcomp, yA (m + 1 - (k + 1)) (by omega)]
          rfl
        · have hn : m + 1 = k + 1 + (y + 1 + (m + 1 - (k + 1) - (y + 1))) := by
            omega
          rw [hn, hcomp, yC (m + 1 - (k + 1) - (y + 1)) (by omega)]
          rfl
    · have hT1 : (max ph.minGreen (st.elapsed + 1) - st.elapsed) +
          ph.yellowDur + ph.allRedDur - 1 + 1 =
          k + 1 + (y + 1 + (r + 1)) := by omega
      rw [htrace, hT1, hcomp, yD]

/-- Witness for C3: in the five-approach demo, an emergency on NE (4)
with confidence 0.90 arriving while EW is green with 2 of its 35 ticks
elapsed reaches PREEMPT_GREEN([4]) exactly at tick (5-2) + 3 + 2 = 8
after the event, and at no earlier tick; and a yellow mid-interval tick
with the same emergency pending advances the yellow by exactly one
tick. -/
theorem claim_C3_witness :
    ((tick demoConfig
        (EngineState.mk (SubState.yellow 1) 1 3 1 Mode.heuristic none
          none [4] [4] [] false)
        (TickInput.mk [] [(0, 99)] [] none none none)).sub =
      SubState.yellow 1 ∧
     (tick demoConfig
        (EngineState.mk (SubState.yellow 1) 1 3 1 Mode.heuristic none
          none [4] [4] [] false)
        (TickInput.mk [] [(0, 99)] [] none none none)).elapsed = 2) ∧
    isPreemptGreenSub ((runQuiet demoConfig
      (tick demoConfig demoGreenEW
        (TickInput.mk [] [(4, 90)] [] none none none)) 6).sub) =
      false ∧
    (runQuiet demoConfig
      (tick demoConfig demoGreenEW
        (TickInput.mk [] [(4, 90)] [] none none none)) 7).sub =
      SubState.preemptGreen [4] := by
  refine ⟨⟨?_, ?_⟩, ?_, ?_⟩
  · exact (claim_C3_preemption_latency.1 demoConfig
      (EngineState.mk (SubState.yellow 1) 1 3 1 Mode.heuristic none none
        [4] [4] [] false)
      (TickInput.mk [] [(0, 99)] [] none none none) rfl
      (by decide)).1
  · exact (claim_C3_preemption_latency.1 demoConfig
      (EngineState.mk (SubState.yellow 1) 1 3 1 Mode.heuristic none none
        [4] [4] [] false)
      (TickInput.mk [] [(0, 99)] [] none none none) rfl
      (by decide)).2.1
  · exact (claim_C3_preemption_latency.2 demoConfig demoGreenEW 1 phEW
      4 90 (by decide) rfl (by decide) (by decide) rfl rfl (by decide)
      (by decide) ⟨2, by decide, by decide⟩).1 6 (by decide)
  · exact (claim_C3_preemption_latency.2 demoConfig demoGreenEW 1 phEW
      4 90 (by decide) rfl (by decide) (by decide) rfl rfl (by decide)
      (by decide) ⟨2, by decide, by decide⟩).2

end RaahSugam
